import Mathlib

/-!
Shallow embedding of `src/molpal/explorer.py` (the `Explorer` class).

Modelling conventions:
* Python floats are modelled as exact rationals (`ℚ`).  The two float
  comparisons in the source (`k / len(self.scores) < 0.8` and
  `int(k * len(self.pool))`) are modelled by exact rational arithmetic;
  this agrees with IEEE-754 double behaviour for all realistic pool and
  score-map sizes (divergence would require sizes around `10^16`).
* Python `int`-or-`float` parameters (`k`, `max_explore`, the `k` argument
  of `avg`/`top_explored`/`top_preds`) are modelled by the tagged type
  `PyNum`, mirroring the `isinstance(k, float)` dispatch in the source.
* Python dictionaries are modelled as insertion-ordered association lists
  with upsert semantics (`dictUpsert`): assigning to an existing key
  rewrites its value in place, assigning to a fresh key appends.
* Raised exceptions are modelled by `Except PyErr`; `PyErr` distinguishes
  `ZeroDivisionError`, `TypeError` (e.g. summing `(key, value)` tuples or
  subtracting from `None`) and the module's `InvalidExplorationError`.
* External collaborators (acquirer, objective, surrogate model) are pure
  oracles: each exploration round receives the objective's results and the
  model's predictions as inputs (`RoundInput`).  File I/O is modelled by
  the data written/read: a score-CSV snapshot is its list of data rows,
  a row being an identifier together with `some score` (a float cell,
  which reparses exactly) or `none` (the empty cell written for a `None`
  failure value, whose `float` parse fails and turns the row back into a
  failure).
-/

/-- A Python `Union[int, float]` value, as dispatched on by `isinstance(.., float)`. -/
inductive PyNum where
  | int (n : ℤ)
  | float (q : ℚ)
deriving DecidableEq, Repr

/-- Exceptions raised (or anticipated by the spec) in `explorer.py`.
`emptyPool` is the `EmptyPoolError`-kind condition the spec asks for; the
code itself never produces it. -/
inductive PyErr where
  | zeroDivision
  | typeError
  | invalidExploration
  | emptyPool
deriving DecidableEq, Repr

deriving instance DecidableEq for Except

/-- Python `int(x)` on a float: truncation toward zero. -/
def intTrunc (q : ℚ) : ℤ :=
  if q < 0 then ⌈q⌉ else ⌊q⌋

/-- Resolve a `Union[int, float]` parameter against the pool size:
`if isinstance(x, float): x = int(x * len(self.pool))`. -/
def resolvePyNum (p : PyNum) (poolLen : ℕ) : ℤ :=
  match p with
  | .int n => n
  | .float q => intTrunc (q * poolLen)

/-- Python dict upsert `d[x] = v`: rewrite the value of an existing key in
place, otherwise append the new pair. -/
def dictUpsert (d : List (String × ℚ)) (x : String) (v : ℚ) : List (String × ℚ) :=
  if d.any (fun p => p.1 = x) then
    d.map (fun p => if p.1 = x then (p.1, v) else p)
  else d ++ [(x, v)]

/-- Upsert into the failure dict `self.failures[x] = None`: the stored value
is always `None`, so only key insertion is observable. -/
def failUpsert (f : List String) (x : String) : List String :=
  if f.contains x then f else f ++ [x]

/-- First-match association lookup (Python `d[x]` / `x in d` support). -/
def alookup : List (String × ℚ) → String → Option ℚ
  | [], _ => none
  | (k, v) :: t, x => if k = x then some v else alookup t x

/-- `sorted(xs, key=itemgetter(1), reverse=True)`: stable descending sort
by the score component. -/
def sortDesc (l : List (String × ℚ)) : List (String × ℚ) :=
  l.mergeSort (fun a b => decide (b.2 ≤ a.2))

/-- `collections.deque(maxlen=w)` append: keep only the `w` most recent. -/
def dequeAppend (w : ℕ) (d : List ℚ) (x : ℚ) : List ℚ :=
  (d ++ [x]).drop ((d ++ [x]).length - w)

/-- Comparison of `(y, x)` tuples as used by `heapq` in `top_preds`:
Python tuple `<` is lexicographic. -/
def predLt (a b : ℚ × String) : Bool :=
  decide (a.1 < b.1) || (decide (a.1 = b.1) && decide (a.2 < b.2))

/-- The inner loop of `heapq._siftdown`: `newitem` bubbles up from `pos`
toward `startpos`, moving larger parents down. -/
def siftdownLoop (heap : Array (ℚ × String)) (startpos pos : ℕ) (newitem : ℚ × String) :
    Array (ℚ × String) :=
  if _h : startpos < pos then
    let parentpos := (pos - 1) / 2
    let parent := heap.getD parentpos default
    if predLt newitem parent then
      siftdownLoop (heap.setD pos parent) startpos parentpos newitem
    else heap.setD pos newitem
  else heap.setD pos newitem
termination_by pos
decreasing_by
  omega

/-- The loop of `heapq._siftup`: move the smaller child up until a leaf is
reached, then restore `newitem` by `_siftdown`. -/
def siftupLoop (heap : Array (ℚ × String)) (startpos pos childpos endpos : ℕ)
    (newitem : ℚ × String) : Array (ℚ × String) :=
  if _h : childpos < endpos then
    let rightpos := childpos + 1
    let childpos :=
      if rightpos < endpos &&
          !predLt (heap.getD childpos default) (heap.getD rightpos default) then
        rightpos
      else childpos
    let heap := heap.setD pos (heap.getD childpos default)
    siftupLoop heap startpos childpos (2 * childpos + 1) endpos newitem
  else siftdownLoop (heap.setD pos newitem) startpos pos newitem
termination_by endpos - childpos
decreasing_by
  split <;> omega

/-- `heapq.heappush(heap, item)`. -/
def heappush (heap : Array (ℚ × String)) (item : ℚ × String) : Array (ℚ × String) :=
  siftdownLoop (heap.push item) 0 heap.size item

/-- `heapq.heappushpop(heap, item)`, keeping only the updated heap (the
caller in `top_preds` discards the popped value). -/
def heappushpop (heap : Array (ℚ × String)) (item : ℚ × String) : Array (ℚ × String) :=
  if heap.size ≠ 0 && predLt (heap.getD 0 default) item then
    siftupLoop (heap.setD 0 item) 0 0 1 heap.size item
  else heap

/-- One score-CSV snapshot, given by its data rows (header omitted).  A row
holds the identifier and either `some score` (a parseable float cell) or
`none` (the empty cell produced by writing a `None` failure value). -/
abbrev Snapshot := List (String × Option ℚ)

/-- The modelled state of an `Explorer` object: its configuration
parameters together with the stateful attributes set up in `__init__`
(lines 151-183).  The pool is carried as its ordered identifier list;
`scores_csvs` carries the contents of each written snapshot (the file
system being external, a stored path is identified with the rows it
names). -/
structure Explorer where
  pool : List String
  kParam : PyNum
  maxExploreParam : PyNum
  windowSize : ℕ
  delta : ℚ
  maxEpochs : ℕ
  retrain_from_scratch : Bool
  write_intermediate : Bool
  epoch : ℕ
  scores : List (String × ℚ)
  failures : List String
  new_scores : List (String × ℚ)
  updated_model : Option Bool
  top_k_avg : Option ℚ
  recent_avgs : List ℚ
  y_preds : Option (List ℚ)
  scores_csvs : List Snapshot
deriving DecidableEq, Repr

/-- The `k` property (lines 185-193): resolve a float against the pool
size, then clamp to the pool size. -/
def Explorer.kProp (ex : Explorer) : ℤ :=
  min (resolvePyNum ex.kParam ex.pool.length) ex.pool.length

/-- The `max_explore` property (lines 206-213): resolve a float against
the pool size.  Note: unlike `k`, no `min` with the pool size is taken. -/
def Explorer.maxExploreRes (ex : Explorer) : ℤ :=
  resolvePyNum ex.maxExploreParam ex.pool.length

/-- The shared prelude of `avg`, `top_explored` and `top_preds`
(lines 399-402, 426-429, 450-453):
`k = k or self.k` (so an absent argument, `0`, or `0.0` falls back to the
`k` property), float resolution against the pool, then
`k = min(k, len(self.scores))`. -/
def resolveK (ex : Explorer) (kArg : Option PyNum) : ℤ :=
  let k : PyNum :=
    match kArg with
    | none => .int ex.kProp
    | some (.int 0) => .int ex.kProp
    | some (.float q) => if q = 0 then .int ex.kProp else .float q
    | some v => v
  let k : ℤ :=
    match k with
    | .int n => n
    | .float q => intTrunc (q * ex.pool.length)
  min k (ex.scores.length : ℤ)

/-- `top_explored` (lines 409-434).  `heapq.nlargest(k, items, key)` is,
per its documentation, `sorted(items, key=key, reverse=True)[:k]`; the
`k / len(self.scores)` test raises `ZeroDivisionError` on an empty score
map.  Note the full-sort branch returns every entry, without truncation
to `k`. -/
def Explorer.top_explored (ex : Explorer) (kArg : Option PyNum) :
    Except PyErr (List (String × ℚ)) :=
  let k := resolveK ex kArg
  if ex.scores.length = 0 then .error .zeroDivision
  else if (k : ℚ) / (ex.scores.length : ℚ) < 4/5 then
    .ok ((sortDesc ex.scores).take k.toNat)
  else .ok (sortDesc ex.scores)

/-- `avg` (lines 382-407).  In the `k == len(self.pool)` branch the source
sums `self.scores.items()` — `(key, value)` tuples — which raises
`TypeError` as soon as the score map is non-empty (and `ZeroDivisionError`
for the empty map, since `sum` of nothing is `0` and `k` is then `0`).
Otherwise the values of `top_explored(k)` are summed and divided by `k`. -/
def Explorer.avg (ex : Explorer) (kArg : Option PyNum) : Except PyErr ℚ :=
  let k := resolveK ex kArg
  if k = (ex.pool.length : ℤ) then
    if ex.scores.isEmpty then .error .zeroDivision else .error .typeError
  else
    match ex.top_explored (some (.int k)) with
    | .error e => .error e
    | .ok l =>
      if k = 0 then .error .zeroDivision
      else .ok ((l.map Prod.snd).sum / (k : ℚ))

/-- `top_preds` (lines 436-462): a bounded `heapq` selection over
`zip(self.pool.smis(), self.y_preds)`.  When `y_preds` is still `None`
(no prediction pass has run), `zip` raises `TypeError`. -/
def Explorer.top_preds (ex : Explorer) (kArg : Option PyNum) :
    Except PyErr (List (String × ℚ)) :=
  let k := resolveK ex kArg
  match ex.y_preds with
  | none => .error .typeError
  | some preds =>
    let selected := (ex.pool.zip preds).foldl
      (fun sel xy =>
        if (sel.size : ℤ) < k then heappush sel (xy.2, xy.1)
        else heappushpop sel (xy.2, xy.1))
      #[]
    .ok (selected.toList.map (fun p => (p.2, p.1)))

/-- The `completed` property (lines 228-259).  The moving-average branch
evaluates `sum(recent_avgs) / len(recent_avgs)` (a `ZeroDivisionError`
when the window capacity is zero), then `(top_k_avg - moving_avg) /
moving_avg` (a `TypeError` when `top_k_avg` is still `None`, a
`ZeroDivisionError` when the moving average is zero). -/
def Explorer.completed (ex : Explorer) : Except PyErr Bool :=
  if ex.epoch > ex.maxEpochs then .ok true
  else if (ex.scores.length : ℤ) ≥ ex.maxExploreRes then .ok true
  else if ex.recent_avgs.length < ex.windowSize then .ok false
  else if ex.recent_avgs.length = 0 then .error .zeroDivision
  else
    let movingAvg := ex.recent_avgs.sum / (ex.recent_avgs.length : ℚ)
    match ex.top_k_avg with
    | none => .error .typeError
    | some t =>
      if movingAvg = 0 then .error .zeroDivision
      else .ok (decide ((t - movingAvg) / movingAvg ≤ ex.delta))

/-- `__len__` (lines 292-294): scored plus failed inputs. -/
def Explorer.lenExplored (ex : Explorer) : ℕ :=
  ex.scores.length + ex.failures.length

/-- One entry of `_clean_and_update_scores` (lines 612-617): a `None`
result is upserted into `failures`, a value into `scores` and
`new_scores`. -/
def cleanEntry (ex : Explorer) (x : String) (y : Option ℚ) : Explorer :=
  match y with
  | none => { ex with failures := failUpsert ex.failures x }
  | some v =>
    { ex with
      scores := dictUpsert ex.scores x v
      new_scores := dictUpsert ex.new_scores x v }

/-- `_clean_and_update_scores` (lines 593-617): fold the result batch, in
order, into the three maps. -/
def Explorer.clean_and_update_scores (ex : Explorer)
    (results : List (String × Option ℚ)) : Explorer :=
  results.foldl (fun e r => cleanEntry e r.1 r.2) ex

/-- The state effects of `_update_model` (lines 619-645): with no new
scores it only lowers the staleness flag; otherwise the (external) model
is trained, `new_scores` is cleared and the flag is raised.  Which data
set is passed to `model.train` does not touch the modelled state. -/
def Explorer.update_model_state (ex : Explorer) : Explorer :=
  if ex.new_scores.length = 0 then { ex with updated_model := some false }
  else { ex with new_scores := [], updated_model := some true }

/-- The state effects of `_update_predictions` (lines 647-677): a no-op
when the model was not updated and predictions exist; otherwise the fresh
predictions (an external model output, supplied as an oracle input) are
installed and the staleness flag cleared. -/
def Explorer.update_predictions_state (ex : Explorer) (preds : List ℚ) : Explorer :=
  let stale := match ex.updated_model with | some true => true | _ => false
  let havePreds := match ex.y_preds with | some (_ :: _) => true | _ => false
  if !stale && havePreds then ex
  else { ex with y_preds := some preds, updated_model := some false }

/-- `write_scores` as called from `explore_initial`/`explore_batch`
(lines 464-512 with `m = 1.`, `final=False`, `include_failed=True`):
`m` resolves to `len(self)`, the snapshot rows are `top_explored(m)`
followed by the failure items (whose `None` values become unparseable
cells), and the snapshot is recorded in `scores_csvs`. -/
def Explorer.write_scores (ex : Explorer) : Except PyErr Explorer :=
  let lenSelf : ℤ := (ex.lenExplored : ℤ)
  let m : ℤ := min (intTrunc ((1 : ℚ) * (lenSelf : ℚ))) lenSelf
  match ex.top_explored (some (.int m)) with
  | .error e => .error e
  | .ok top_m =>
    .ok { ex with
      scores_csvs := ex.scores_csvs ++
        [top_m.map (fun p => (p.1, some p.2)) ++ ex.failures.map (fun x => (x, none))] }

/-- The rows that `write_scores` (as called with `include_failed=True`)
emits for an explorer state: every explored score, sorted descending,
followed by the failure items. -/
def snapRows (ex : Explorer) : Snapshot :=
  (sortDesc ex.scores).map (fun p => (p.1, some p.2)) ++
    ex.failures.map (fun x => (x, none))

/-- The oracle inputs of one exploration round: the surrogate model's
predictions over the pool and the objective's results on the acquired
batch. -/
structure RoundInput where
  preds : List ℚ
  results : List (String × Option ℚ)
deriving DecidableEq, Repr

/-- The state after `self.top_k_avg = self.avg()` and the conditional
window append (lines 319-321 / 370-372): record the new top-k average and
push it into the recent-averages deque when at least `k` inputs have been
scored. -/
def postAvgState (exm : Explorer) (a : ℚ) : Explorer :=
  let ex := { exm with top_k_avg := some a }
  if (ex.scores.length : ℤ) ≥ ex.kProp then
    { ex with recent_avgs := dequeAppend ex.windowSize ex.recent_avgs a }
  else ex

/-- `if self.write_intermediate: self.write_scores(include_failed=True)`
(lines 323-324 / 374-375). -/
def writeIfIntermediate (ex : Explorer) : Except PyErr Explorer :=
  if ex.write_intermediate then ex.write_scores else .ok ex

/-- The returned batch mean
`sum(valid_scores)/len(valid_scores)` (lines 328-329 / 379-380): a
`ZeroDivisionError` when no result in the batch is valid. -/
def batchMean (results : List (String × Option ℚ)) : Except PyErr ℚ :=
  let valid := results.filterMap Prod.snd
  if valid.length = 0 then .error .zeroDivision
  else .ok (valid.sum / (valid.length : ℚ))

/-- The shared tail of `explore_initial`/`explore_batch` (lines 317-329 and
368-380): merge the results, recompute `top_k_avg` (propagating any
exception from `avg`), conditionally push it into the recent-averages
window, write the intermediate snapshot when configured, advance the
epoch, and return the batch mean. -/
def exploreTail (ex : Explorer) (results : List (String × Option ℚ)) :
    Except PyErr (Explorer × Option ℚ) :=
  let exm := ex.clean_and_update_scores results
  match exm.avg none with
  | .error e => .error e
  | .ok a =>
    match writeIfIntermediate (postAvgState exm a) with
    | .error e => .error e
    | .ok ex2 =>
      match batchMean results with
      | .error e => .error e
      | .ok m => .ok ({ ex2 with epoch := ex2.epoch + 1 }, some m)

/-- `explore_initial` (lines 296-329): the acquirer's initial selection and
the objective run are external; their outcome is the result batch. -/
def Explorer.explore_initial (ex : Explorer) (results : List (String × Option ℚ)) :
    Except PyErr (Explorer × Option ℚ) :=
  exploreTail ex results

/-- `explore_batch` (lines 331-380): the epoch-zero guard raises
`InvalidExplorationError`; the pool-exhaustion guard advances the epoch
and returns the stale `top_k_avg` without exploring; otherwise the model
gate and prediction refresh run, the acquirer and objective (external)
produce the result batch, and the common tail executes. -/
def Explorer.explore_batch (ex : Explorer) (inp : RoundInput) :
    Except PyErr (Explorer × Option ℚ) :=
  if ex.epoch = 0 then .error .invalidExploration
  else if ex.scores.length ≥ ex.pool.length then
    .ok ({ ex with epoch := ex.epoch + 1 }, ex.top_k_avg)
  else
    let ex := ex.update_model_state
    let ex := ex.update_predictions_state inp.preds
    exploreTail ex inp.results

/-- One round of `run` (lines 264-278): the initial round at epoch zero,
a steady-state round afterwards. -/
def runRound (ex : Explorer) (inp : RoundInput) : Except PyErr (Explorer × Option ℚ) :=
  if ex.epoch = 0 then ex.explore_initial inp.results
  else ex.explore_batch inp

/-- Iterate `runRound` over a list of per-round oracle inputs. -/
def runAux (ex : Explorer) : List RoundInput → Except PyErr Explorer
  | [] => .ok ex
  | inp :: rest =>
    match runRound ex inp with
    | .error e => .error e
    | .ok (ex', _) => runAux ex' rest

/-- `_read_scores` (lines 688-701): build the score and failure dicts row
by row; a row whose score cell parses becomes a score, otherwise a
failure. -/
def readAux (acc : List (String × ℚ) × List String) (rows : Snapshot) :
    List (String × ℚ) × List String :=
  rows.foldl
    (fun sf r =>
      match r.2 with
      | some v => (dictUpsert sf.1 r.1 v, sf.2)
      | none => (sf.1, failUpsert sf.2 r.1))
    acc

def read_scores (rows : Snapshot) : List (String × ℚ) × List String :=
  readAux ([], []) rows

/-- One iteration of `load` (lines 560-574), split into the state before
the `avg` call and the common `postAvgState` epilogue (setting
`top_k_avg` and conditionally extending the window, exactly as in the
explore rounds): read the snapshot, replace `failures`, compute the
genuinely new scores, run the model gate (unless retraining from
scratch), replace `scores`, advance the epoch. -/
def loadPreState (ex : Explorer) (snap : Snapshot) : Explorer :=
  let sf := read_scores snap
  let ex1 := { ex with failures := sf.2 }
  let ns := sf.1.filter (fun p => !ex1.scores.any (fun q => q.1 = p.1))
  let ex2 := { ex1 with new_scores := ns }
  let ex3 := if ex2.retrain_from_scratch then ex2 else ex2.update_model_state
  let ex4 := { ex3 with scores := sf.1 }
  { ex4 with epoch := ex4.epoch + 1 }

def loadStep (ex : Explorer) (snap : Snapshot) : Except PyErr Explorer :=
  match (loadPreState ex snap).avg none with
  | .error e => .error e
  | .ok a => .ok (postAvgState (loadPreState ex snap) a)

/-- Iterate `loadStep` over a list of snapshots. -/
def loadAux (ex : Explorer) : List Snapshot → Except PyErr Explorer
  | [] => .ok ex
  | snap :: rest =>
    match loadStep ex snap with
    | .error e => .error e
    | .ok ex' => loadAux ex' rest

/-- `load` (lines 553-577): replay every snapshot recorded in
`scores_csvs`. -/
def Explorer.load (ex : Explorer) : Except PyErr Explorer :=
  loadAux ex ex.scores_csvs

/-- Constructing a fresh `Explorer` with the same configuration as `ex`
and a given `scores_csvs` list (lines 151-183): all stateful attributes
reset to their `__init__` values. -/
def Explorer.reinit (ex : Explorer) (snaps : List Snapshot) : Explorer :=
  { ex with
    epoch := 0, scores := [], failures := [], new_scores := [],
    updated_model := none, top_k_avg := none, recent_avgs := [],
    y_preds := none, scores_csvs := snaps }

/-! Auxiliary definitions used by the verification (extracted views of the
fold in `_clean_and_update_scores`, and concrete states for witnesses). -/

/-- The score-map component of `_clean_and_update_scores`: upsert every
valid result, in order. -/
def mergeScores (d : List (String × ℚ)) (rows : List (String × Option ℚ)) :
    List (String × ℚ) :=
  rows.foldl
    (fun d r => match r.2 with | some v => dictUpsert d r.1 v | none => d) d

/-- The failure-map component of `_clean_and_update_scores`. -/
def mergeFailures (f : List String) (rows : List (String × Option ℚ)) : List String :=
  rows.foldl
    (fun f r => match r.2 with | none => failUpsert f r.1 | some _ => f) f

/-- Identifiers of a row list that carry a valid score. -/
def someKeys (rows : List (String × Option ℚ)) : List String :=
  rows.filterMap (fun r => if r.2.isSome then some r.1 else none)

/-- Identifiers of a row list whose evaluation failed. -/
def noneKeys (rows : List (String × Option ℚ)) : List String :=
  rows.filterMap (fun r => if r.2.isSome then none else some r.1)

/-- The value of the last valid write of `x` in a row list, if any. -/
def lastWrite : List (String × Option ℚ) → String → Option ℚ
  | [], _ => none
  | r :: rest, x => (lastWrite rest x).orElse (fun _ => if r.1 = x then r.2 else none)

/-- Merge a sequence of result batches into an explorer. -/
def mergeAll (ex : Explorer) (bs : List (List (String × Option ℚ))) : Explorer :=
  bs.foldl Explorer.clean_and_update_scores ex

/-- The number of distinct identifiers appearing in a batch sequence. -/
def distinctEvaluated (bs : List (List (String × Option ℚ))) : ℕ :=
  (bs.flatten.map Prod.fst).toFinset.card

/-- Configuration fields, which the exploration rounds never change. -/
def sameConfig (a b : Explorer) : Prop :=
  a.pool = b.pool ∧ a.kParam = b.kParam ∧ a.maxExploreParam = b.maxExploreParam ∧
  a.windowSize = b.windowSize ∧ a.delta = b.delta ∧ a.maxEpochs = b.maxEpochs ∧
  a.retrain_from_scratch = b.retrain_from_scratch ∧
  a.write_intermediate = b.write_intermediate

/-- Decidable formulation of "round `i+1` does not take the
pool-exhaustion fast path": the state after `i` rounds has explored fewer
inputs than the pool holds. -/
def noExhaustAt (ex0 : Explorer) (ins : List RoundInput) (i : ℕ) : Bool :=
  match runAux ex0 (ins.take i) with
  | .ok r => decide (r.scores.length < ex0.pool.length)
  | .error _ => true

/-- A fresh explorer over a ten-molecule pool, used by concrete witnesses. -/
def mkEx (pool : List String) (kp mep : PyNum) : Explorer :=
  { pool := pool, kParam := kp, maxExploreParam := mep, windowSize := 3,
    delta := 1/100, maxEpochs := 50, retrain_from_scratch := false,
    write_intermediate := true, epoch := 0, scores := [], failures := [],
    new_scores := [], updated_model := none, top_k_avg := none,
    recent_avgs := [], y_preds := none, scores_csvs := [] }

def pool10 : List String :=
  ["m1", "m2", "m3", "m4", "m5", "m6", "m7", "m8", "m9", "m10"]

/-- Five explored molecules, all scoring 1, in a pool of ten (C1). -/
def exAllOnes : Explorer :=
  { mkEx pool10 (.int 1) (.float 1) with
    scores := [("a", 1), ("b", 1), ("c", 1), ("d", 1), ("e", 1)] }

/-- A fully-scored one-molecule pool (C1, the `k == len(pool)` branch). -/
def exPoolOne : Explorer :=
  { mkEx ["a"] (.int 1) (.float 1) with scores := [("a", 2)] }

/-- The spec's §8 scenario scores in a pool of ten (C4). -/
def exFive : Explorer :=
  { mkEx pool10 (.int 2) (.float 1) with
    scores := [("A", 5), ("B", 3), ("C", 9), ("D", 1), ("E", 7)] }

/-- An explorer with an empty score map (C8). -/
def exEmpty : Explorer := mkEx pool10 (.int 2) (.float 1)

/-- An explorer mid-run, before its window fills (C6). -/
def exMidRun : Explorer :=
  { mkEx pool10 (.int 1) (.int 10) with
    epoch := 3, scores := [("a", 1), ("b", 2)], recent_avgs := [1] }

/-- `max_explore` given as an integer exceeding the pool size (C7). -/
def exOverInt : Explorer := mkEx pool10 (.int 1) (.int 20)

/-- `max_explore` given as a fraction exceeding 1 (C7). -/
def exOverFrac : Explorer := mkEx pool10 (.int 1) (.float 2)

/-- A batch with an internal overwrite and a failure (C5 witness). -/
def batchC5 : List (String × Option ℚ) :=
  [("a", some 1), ("b", none), ("a", some 2), ("c", some 3)]

/-- A failure later re-evaluated successfully (C3 counterexample). -/
def batchesRetry : List (List (String × Option ℚ)) :=
  [[("a", none)], [("a", some 1)]]

/-- Batches whose identifiers never switch outcome (C3 witness). -/
def batchesClean : List (List (String × Option ℚ)) :=
  [[("a", some 1), ("b", none)], [("a", some 2), ("c", some 4)]]

/-- A two-round run over a three-molecule pool (C2 witness). -/
def exRun : Explorer := mkEx ["a", "b", "c"] (.int 1) (.float 1)

def insRun : List RoundInput :=
  [⟨[], [("a", some 1), ("b", none)]⟩, ⟨[1, 2, 3], [("c", some 2)]⟩]

/-- The final state of the `exRun`/`insRun` run. -/
def runRes : Explorer := ((runAux exRun insRun).toOption).getD exRun

/-- A run whose second round takes the pool-exhaustion fast path: a
two-molecule pool fully scored in round one, with `max_explore = 5`
exceeding the pool size so that `completed` stays false (C2
counterexample). -/
def exRunX : Explorer := mkEx ["a", "b"] (.int 1) (.int 5)

def insRunX : List RoundInput :=
  [⟨[], [("a", some 1), ("b", some 2)]⟩, ⟨[1, 2], []⟩]

/-- The state of the `exRunX` run after round one. -/
def runResX1 : Explorer := ((runAux exRunX (insRunX.take 1)).toOption).getD exRunX

/-- The final state of the `exRunX` run. -/
def runResX : Explorer := ((runAux exRunX insRunX).toOption).getD exRunX

/-- The state reconstructed by replaying the `exRunX` run's snapshots. -/
def loadResX : Explorer :=
  (((exRunX.reinit runResX.scores_csvs).load).toOption).getD exRunX

/-! Basic lemmas about the dictionary model. -/

theorem alookup_cons (q : String × ℚ) (t : List (String × ℚ)) (y : String) :
    alookup (q :: t) y = if q.1 = y then some q.2 else alookup t y := rfl

theorem any_key_iff (d : List (String × ℚ)) (x : String) :
    d.any (fun p => p.1 = x) = true ↔ x ∈ d.map Prod.fst := by
  induction d with
  | nil => simp
  | cons p t ih =>
    simp only [List.any_cons, List.map_cons, List.mem_cons, Bool.or_eq_true,
      decide_eq_true_eq, ih]
    constructor
    · rintro (h | h)
      · exact Or.inl h.symm
      · exact Or.inr h
    · rintro (h | h)
      · exact Or.inl h.symm
      · exact Or.inr h

theorem keys_dictUpsert_of_mem {d : List (String × ℚ)} {x : String} (v : ℚ)
    (h : x ∈ d.map Prod.fst) :
    (dictUpsert d x v).map Prod.fst = d.map Prod.fst := by
  unfold dictUpsert
  rw [if_pos ((any_key_iff d x).mpr h)]
  rw [List.map_map]
  apply List.map_congr_left
  intro p _
  by_cases hp : p.1 = x <;> simp [hp]

theorem keys_dictUpsert_of_not_mem {d : List (String × ℚ)} {x : String} (v : ℚ)
    (h : x ∉ d.map Prod.fst) :
    (dictUpsert d x v).map Prod.fst = d.map Prod.fst ++ [x] := by
  unfold dictUpsert
  rw [if_neg (fun hc => h ((any_key_iff d x).mp hc))]
  simp

theorem mem_keys_dictUpsert (d : List (String × ℚ)) (x y : String) (v : ℚ) :
    y ∈ (dictUpsert d x v).map Prod.fst ↔ y ∈ d.map Prod.fst ∨ y = x := by
  by_cases h : x ∈ d.map Prod.fst
  · rw [keys_dictUpsert_of_mem v h]
    constructor
    · exact Or.inl
    · rintro (hy | rfl) <;> [exact hy; exact h]
  · rw [keys_dictUpsert_of_not_mem v h]
    simp

theorem nodup_keys_dictUpsert {d : List (String × ℚ)} (x : String) (v : ℚ)
    (h : (d.map Prod.fst).Nodup) : ((dictUpsert d x v).map Prod.fst).Nodup := by
  by_cases hm : x ∈ d.map Prod.fst
  · rw [keys_dictUpsert_of_mem v hm]; exact h
  · rw [keys_dictUpsert_of_not_mem v hm, List.nodup_append]
    exact ⟨h, List.nodup_singleton x,
      fun a ha hax => hm (by rwa [List.mem_singleton.mp hax] at ha)⟩

theorem alookup_eq_none (d : List (String × ℚ)) (y : String) :
    alookup d y = none ↔ y ∉ d.map Prod.fst := by
  induction d with
  | nil => simp [alookup]
  | cons p t ih =>
    rw [alookup_cons]
    by_cases hp : p.1 = y
    · simp [hp]
    · rw [if_neg hp, ih]
      have hne : ¬ y = p.1 := fun h => hp h.symm
      simp [hne]

theorem alookup_append (d e : List (String × ℚ)) (y : String) :
    alookup (d ++ e) y = (alookup d y).orElse (fun _ => alookup e y) := by
  induction d with
  | nil => simp [alookup]
  | cons p t ih =>
    rw [List.cons_append, alookup_cons, alookup_cons]
    by_cases hp : p.1 = y <;> simp [hp, ih]

theorem alookup_mapUpsert (d : List (String × ℚ)) (x : String) (v : ℚ) (y : String) :
    alookup (d.map (fun p => if p.1 = x then (p.1, v) else p)) y =
      if y = x then (alookup d x).map (fun _ => v) else alookup d y := by
  induction d with
  | nil => by_cases hyx : y = x <;> simp [alookup, hyx]
  | cons p t ih =>
    rw [List.map_cons, alookup_cons, alookup_cons, alookup_cons]
    have hfst : (if p.1 = x then (p.1, v) else p).1 = p.1 := by
      by_cases hp : p.1 = x <;> simp [hp]
    rw [hfst]
    by_cases hp : p.1 = y
    · by_cases hyx : y = x
      · have hpx : p.1 = x := by rw [hp, hyx]
        simp [hp, hpx, hyx]
      · have hpx : ¬ p.1 = x := fun h => hyx (by rw [← hp, h])
        simp [hp, hpx, hyx]
    · by_cases hyx : y = x
      · subst hyx
        by_cases hpx : p.1 = y
        · exact absurd hpx hp
        · simp [hp, hpx, ih]
      · simp [hp, hyx, ih]

theorem alookup_some_of_mem {d : List (String × ℚ)} {x : String}
    (h : x ∈ d.map Prod.fst) : ∃ w, alookup d x = some w := by
  cases hl : alookup d x with
  | none => exact absurd ((alookup_eq_none d x).mp hl) (by simpa using h)
  | some w => exact ⟨w, rfl⟩

theorem alookup_dictUpsert (d : List (String × ℚ)) (x : String) (v : ℚ) (y : String) :
    alookup (dictUpsert d x v) y = if y = x then some v else alookup d y := by
  by_cases hm : x ∈ d.map Prod.fst
  · unfold dictUpsert
    rw [if_pos ((any_key_iff d x).mpr hm), alookup_mapUpsert]
    obtain ⟨w, hw⟩ := alookup_some_of_mem hm
    by_cases hyx : y = x <;> simp [hyx, hw]
  · unfold dictUpsert
    rw [if_neg (fun hc => hm ((any_key_iff d x).mp hc)), alookup_append]
    by_cases hyx : y = x
    · subst hyx
      rw [(alookup_eq_none d y).mpr hm]
      simp [alookup]
    · have hxy : ¬ x = y := fun h => hyx h.symm
      cases hl : alookup d y <;> simp [alookup, hyx, hxy, hl]

/-! Structure of `_clean_and_update_scores` as three independent folds. -/

theorem clean_eq (b : List (String × Option ℚ)) : ∀ ex : Explorer,
    ex.clean_and_update_scores b =
      { ex with
        scores := mergeScores ex.scores b
        new_scores := mergeScores ex.new_scores b
        failures := mergeFailures ex.failures b } := by
  induction b with
  | nil => intro ex; rfl
  | cons r rest ih =>
    intro ex
    have step : Explorer.clean_and_update_scores ex (r :: rest) =
        Explorer.clean_and_update_scores (cleanEntry ex r.1 r.2) rest := rfl
    rw [step, ih (cleanEntry ex r.1 r.2)]
    cases hy : r.2 with
    | none => simp [cleanEntry, mergeScores, mergeFailures, hy]
    | some v => simp [cleanEntry, mergeScores, mergeFailures, hy]

theorem mergeScores_nil (d : List (String × ℚ)) : mergeScores d [] = d := rfl

theorem mergeScores_cons (d : List (String × ℚ)) (r : String × Option ℚ)
    (rest : List (String × Option ℚ)) :
    mergeScores d (r :: rest) =
      mergeScores (match r.2 with | some v => dictUpsert d r.1 v | none => d) rest := rfl

theorem mergeFailures_nil (f : List String) : mergeFailures f [] = f := rfl

theorem mergeFailures_cons (f : List String) (r : String × Option ℚ)
    (rest : List (String × Option ℚ)) :
    mergeFailures f (r :: rest) =
      mergeFailures (match r.2 with | none => failUpsert f r.1 | some _ => f) rest := rfl

theorem mem_keys_mergeScores (rows : List (String × Option ℚ)) :
    ∀ (d : List (String × ℚ)) (y : String),
      y ∈ (mergeScores d rows).map Prod.fst ↔
        y ∈ d.map Prod.fst ∨ y ∈ someKeys rows := by
  induction rows with
  | nil => simp [mergeScores, someKeys]
  | cons r rest ih =>
    intro d y
    rw [mergeScores_cons]
    cases hy : r.2 with
    | none =>
      rw [ih]
      simp [someKeys, hy]
    | some v =>
      rw [ih]
      simp only [someKeys, List.filterMap_cons, hy, Option.isSome_some, if_pos,
        List.mem_cons, mem_keys_dictUpsert]
      constructor
      · rintro ((h | rfl) | h)
        · exact Or.inl h
        · exact Or.inr (Or.inl rfl)
        · exact Or.inr (Or.inr h)
      · rintro (h | (rfl | h))
        · exact Or.inl (Or.inl h)
        · exact Or.inl (Or.inr rfl)
        · exact Or.inr h

theorem nodup_keys_mergeScores (rows : List (String × Option ℚ)) :
    ∀ d : List (String × ℚ), (d.map Prod.fst).Nodup →
      ((mergeScores d rows).map Prod.fst).Nodup := by
  induction rows with
  | nil => intro d h; exact h
  | cons r rest ih =>
    intro d h
    rw [mergeScores_cons]
    cases hy : r.2 with
    | none => exact ih d h
    | some v => exact ih _ (nodup_keys_dictUpsert r.1 v h)

theorem alookup_mergeScores (rows : List (String × Option ℚ)) :
    ∀ (d : List (String × ℚ)) (y : String),
      alookup (mergeScores d rows) y =
        (lastWrite rows y).orElse (fun _ => alookup d y) := by
  induction rows with
  | nil => intro d y; simp [mergeScores, lastWrite]
  | cons r rest ih =>
    intro d y
    rw [mergeScores_cons]
    cases hy : r.2 with
    | none =>
      rw [ih]
      have : (if r.1 = y then r.2 else none) = none := by
        cases hr : decide (r.1 = y) <;> simp_all
      simp [lastWrite, this]
    | some v =>
      rw [ih, alookup_dictUpsert]
      simp only [lastWrite]
      by_cases hr : r.1 = y
      · have hyr : y = r.1 := hr.symm
        rw [if_pos hr, hy, if_pos hyr]
        cases lastWrite rest y <;> rfl
      · have hyr : ¬ y = r.1 := fun h => hr h.symm
        rw [if_neg hr, if_neg hyr]
        cases lastWrite rest y <;> rfl

theorem noneKeys_cons_some (x : String) (v : ℚ) (rest : List (String × Option ℚ)) :
    noneKeys ((x, some v) :: rest) = noneKeys rest := rfl

theorem noneKeys_cons_none (x : String) (rest : List (String × Option ℚ)) :
    noneKeys ((x, none) :: rest) = x :: noneKeys rest := rfl

theorem someKeys_cons_some (x : String) (v : ℚ) (rest : List (String × Option ℚ)) :
    someKeys ((x, some v) :: rest) = x :: someKeys rest := rfl

theorem someKeys_cons_none (x : String) (rest : List (String × Option ℚ)) :
    someKeys ((x, none) :: rest) = someKeys rest := rfl

theorem mem_mergeFailures (rows : List (String × Option ℚ)) :
    ∀ (f : List String) (y : String),
      y ∈ mergeFailures f rows ↔ y ∈ f ∨ y ∈ noneKeys rows := by
  induction rows with
  | nil => simp [mergeFailures, noneKeys]
  | cons r rest ih =>
    intro f y
    obtain ⟨x, yv⟩ := r
    rw [mergeFailures_cons]
    cases yv with
    | some v =>
      rw [noneKeys_cons_some]
      exact ih f y
    | none =>
      rw [ih, noneKeys_cons_none]
      unfold failUpsert
      by_cases hm : f.contains x
      · rw [if_pos hm]
        have hrm : x ∈ f := by simpa using hm
        simp only [List.mem_cons]
        constructor
        · rintro (h | h)
          · exact Or.inl h
          · exact Or.inr (Or.inr h)
        · rintro (h | (rfl | h))
          · exact Or.inl h
          · exact Or.inl hrm
          · exact Or.inr h
      · rw [if_neg hm]
        simp [List.mem_append, List.mem_cons, or_assoc]

theorem nodup_mergeFailures (rows : List (String × Option ℚ)) :
    ∀ f : List String, f.Nodup → (mergeFailures f rows).Nodup := by
  induction rows with
  | nil => intro f h; exact h
  | cons r rest ih =>
    intro f h
    rw [mergeFailures_cons]
    cases hy : r.2 with
    | some v => exact ih f h
    | none =>
      apply ih
      unfold failUpsert
      by_cases hm : f.contains r.1
      · rw [if_pos hm]; exact h
      · rw [if_neg hm, List.nodup_append]
        exact ⟨h, List.nodup_singleton r.1,
          fun a ha hax => (by simpa using hm : r.1 ∉ f)
            (by rwa [List.mem_singleton.mp hax] at ha)⟩

/-! Replay lemmas: a second application of the same result batch is a
no-op. -/

theorem orElse_self_absorb (a b : Option ℚ) :
    a.orElse (fun _ => a.orElse (fun _ => b)) = a.orElse (fun _ => b) := by
  cases a <;> rfl

theorem keys_mergeScores_replay (rows : List (String × Option ℚ)) :
    ∀ d : List (String × ℚ), (∀ y ∈ someKeys rows, y ∈ d.map Prod.fst) →
      (mergeScores d rows).map Prod.fst = d.map Prod.fst := by
  induction rows with
  | nil => intro d _; rfl
  | cons r rest ih =>
    intro d h
    obtain ⟨x, yv⟩ := r
    rw [mergeScores_cons]
    cases yv with
    | none => exact ih d (fun y hy => h y (by rwa [someKeys_cons_none]))
    | some v =>
      have hx : x ∈ d.map Prod.fst := h x (by rw [someKeys_cons_some]; exact List.mem_cons_self x _)
      rw [show (match (x, some v).2 with
            | some v => dictUpsert d x v
            | none => d) = dictUpsert d x v from rfl]
      rw [ih (dictUpsert d x v) ?_, keys_dictUpsert_of_mem v hx]
      intro y hy
      rw [keys_dictUpsert_of_mem v hx]
      exact h y (by rw [someKeys_cons_some]; exact List.mem_cons_of_mem x hy)

theorem mergeFailures_replay (rows : List (String × Option ℚ)) :
    ∀ f : List String, (∀ y ∈ noneKeys rows, y ∈ f) →
      mergeFailures f rows = f := by
  induction rows with
  | nil => intro f _; rfl
  | cons r rest ih =>
    intro f h
    obtain ⟨x, yv⟩ := r
    rw [mergeFailures_cons]
    cases yv with
    | some v => exact ih f (fun y hy => h y (by rwa [noneKeys_cons_some]))
    | none =>
      have hx : x ∈ f := h x (by rw [noneKeys_cons_none]; exact List.mem_cons_self x _)
      rw [show (match ((x, (none : Option ℚ))).2 with
            | none => failUpsert f x
            | some _ => f) = failUpsert f x from rfl]
      rw [show failUpsert f x = f from by unfold failUpsert; rw [if_pos (by simpa using hx)]]
      exact ih f (fun y hy => h y (by rw [noneKeys_cons_none]; exact List.mem_cons_of_mem x hy))

theorem eq_of_keys_and_lookup : ∀ (l₁ l₂ : List (String × ℚ)),
    l₁.map Prod.fst = l₂.map Prod.fst → (l₁.map Prod.fst).Nodup →
    (∀ x, alookup l₁ x = alookup l₂ x) → l₁ = l₂ := by
  intro l₁
  induction l₁ with
  | nil =>
    intro l₂ hk _ _
    cases l₂ with
    | nil => rfl
    | cons q t => exact absurd hk (by simp)
  | cons p t ih =>
    intro l₂ hk hnd hl
    cases l₂ with
    | nil => exact absurd hk (by simp)
    | cons q u =>
      simp only [List.map_cons, List.cons.injEq] at hk
      obtain ⟨hpq, htu⟩ := hk
      have hval : p.2 = q.2 := by
        have := hl p.1
        rw [alookup_cons, alookup_cons, if_pos rfl, if_pos hpq.symm] at this
        exact Option.some_injective _ this
      have hndt : (t.map Prod.fst).Nodup := (List.nodup_cons.mp hnd).2
      have hpt : p.1 ∉ t.map Prod.fst := (List.nodup_cons.mp hnd).1
      have htl : ∀ x, alookup t x = alookup u x := by
        intro x
        by_cases hx : x = p.1
        · rw [hx, (alookup_eq_none t p.1).mpr hpt]
          symm
          rw [alookup_eq_none, ← htu]
          exact hpt
        · have := hl x
          rw [alookup_cons, alookup_cons] at this
          rw [if_neg (fun h => hx h.symm), if_neg (fun h => hx (hpq ▸ h.symm))] at this
          exact this
      have ht : t = u := ih u htu hndt htl
      calc p :: t = (p.1, p.2) :: t := by rfl
        _ = (q.1, q.2) :: u := by rw [hpq, hval, ht]
        _ = q :: u := by rfl

theorem mergeScores_replay {d : List (String × ℚ)} (rows : List (String × Option ℚ))
    (hnd : (d.map Prod.fst).Nodup) :
    mergeScores (mergeScores d rows) rows = mergeScores d rows := by
  have hmem : ∀ y ∈ someKeys rows, y ∈ (mergeScores d rows).map Prod.fst := by
    intro y hy
    exact (mem_keys_mergeScores rows d y).mpr (Or.inr hy)
  apply eq_of_keys_and_lookup
  · exact keys_mergeScores_replay rows _ hmem
  · rw [keys_mergeScores_replay rows _ hmem]
    exact nodup_keys_mergeScores rows d hnd
  · intro x
    rw [alookup_mergeScores, alookup_mergeScores]
    exact orElse_self_absorb _ _

/-- C5: merging the same result batch twice (via
`_clean_and_update_scores`) yields exactly the same score map, failure map
and new-scores map — the same explorer state — as merging it once, for
every batch and every starting state whose score and new-score dicts have
(as Python dicts do) no duplicate keys. -/
theorem clean_and_update_scores_idempotent (ex : Explorer)
    (b : List (String × Option ℚ))
    (h1 : (ex.scores.map Prod.fst).Nodup)
    (h2 : (ex.new_scores.map Prod.fst).Nodup) :
    (ex.clean_and_update_scores b).clean_and_update_scores b =
      ex.clean_and_update_scores b := by
  have hfail : ∀ y ∈ noneKeys b, y ∈ mergeFailures ex.failures b := by
    intro y hy
    exact (mem_mergeFailures b ex.failures y).mpr (Or.inr hy)
  have key : ∀ e : Explorer, e.scores = mergeScores ex.scores b →
      e.new_scores = mergeScores ex.new_scores b →
      e.failures = mergeFailures ex.failures b →
      e.clean_and_update_scores b = e := by
    intro e hs hn hf
    rw [clean_eq b e, hs, hn, hf,
        mergeScores_replay b h1, mergeScores_replay b h2, mergeFailures_replay b _ hfail,
        ← hs, ← hn, ← hf]
  exact key (ex.clean_and_update_scores b)
    (by rw [clean_eq b ex]) (by rw [clean_eq b ex]) (by rw [clean_eq b ex])

/-- C5 witness: the idempotence theorem applied to a concrete state and a
batch containing an overwrite and a failure. -/
theorem clean_and_update_scores_idempotent_witness :
    ((exFive.scores.map Prod.fst).Nodup ∧ (exFive.new_scores.map Prod.fst).Nodup) ∧
    (exFive.clean_and_update_scores batchC5).clean_and_update_scores batchC5 =
      exFive.clean_and_update_scores batchC5 :=
  ⟨⟨by decide, by decide⟩,
    clean_and_update_scores_idempotent exFive batchC5 (by decide) (by decide)⟩

/-! Counting explored identifiers (C3). -/

theorem mergeAll_eq_flatten (bs : List (List (String × Option ℚ))) :
    ∀ ex : Explorer, mergeAll ex bs = ex.clean_and_update_scores bs.flatten := by
  induction bs with
  | nil => intro ex; rfl
  | cons b rest ih =>
    intro ex
    show mergeAll (ex.clean_and_update_scores b) rest = _
    rw [ih, List.flatten_cons]
    unfold Explorer.clean_and_update_scores
    rw [List.foldl_append]

theorem mem_map_fst_split (rows : List (String × Option ℚ)) (y : String) :
    y ∈ rows.map Prod.fst ↔ y ∈ someKeys rows ∨ y ∈ noneKeys rows := by
  induction rows with
  | nil => simp [someKeys, noneKeys]
  | cons r rest ih =>
    obtain ⟨x, yv⟩ := r
    cases yv with
    | some v =>
      rw [someKeys_cons_some, noneKeys_cons_some]
      simp only [List.map_cons, List.mem_cons, ih]
      tauto
    | none =>
      rw [someKeys_cons_none, noneKeys_cons_none]
      simp only [List.map_cons, List.mem_cons, ih]
      tauto

/-- C3 counterexample: with the batch sequence `[[("a", None)], [("a", 1)]]`
— a failure later re-evaluated successfully — the identifier `a` ends up in
both maps, `len(scores) + len(failures) = 2`, yet only one distinct
identifier was ever evaluated. -/
theorem len_explored_double_counts_cex :
    (mergeAll exEmpty batchesRetry).scores = [("a", 1)] ∧
    (mergeAll exEmpty batchesRetry).failures = ["a"] ∧
    (mergeAll exEmpty batchesRetry).lenExplored = 2 ∧
    distinctEvaluated batchesRetry = 1 := by decide

/-- C3 (amended): starting from empty maps,
`len(score map) + len(failure map)` equals the number of distinct
identifiers ever evaluated provided no identifier has both a successful
and a failed evaluation in the history; an identifier that failed and was
later re-evaluated successfully stays in both maps (the failure entry is
never deleted) and is counted twice. -/
theorem len_explored_counts_distinct (ex : Explorer)
    (bs : List (List (String × Option ℚ)))
    (hs : ex.scores = []) (hf : ex.failures = [])
    (hdisj : ∀ x ∈ someKeys bs.flatten, x ∉ noneKeys bs.flatten) :
    (mergeAll ex bs).lenExplored = distinctEvaluated bs := by
  rw [mergeAll_eq_flatten, clean_eq]
  set rows := bs.flatten with hrows
  unfold Explorer.lenExplored
  show (mergeScores ex.scores rows).length + (mergeFailures ex.failures rows).length = _
  rw [hs, hf]
  have hndS : ((mergeScores [] rows).map Prod.fst).Nodup :=
    nodup_keys_mergeScores rows [] (by simp)
  have hndF : (mergeFailures [] rows).Nodup :=
    nodup_mergeFailures rows [] List.nodup_nil
  have hSfin : ((mergeScores [] rows).map Prod.fst).toFinset = (someKeys rows).toFinset := by
    apply Finset.ext
    intro a
    simp only [List.mem_toFinset]
    rw [mem_keys_mergeScores]
    simp
  have hFfin : (mergeFailures [] rows).toFinset = (noneKeys rows).toFinset := by
    apply Finset.ext
    intro a
    simp only [List.mem_toFinset]
    rw [mem_mergeFailures]
    simp
  have hUfin : (rows.map Prod.fst).toFinset =
      (someKeys rows).toFinset ∪ (noneKeys rows).toFinset := by
    apply Finset.ext
    intro a
    simp only [List.mem_toFinset, Finset.mem_union]
    exact mem_map_fst_split rows a
  have hdisjF : Disjoint (someKeys rows).toFinset (noneKeys rows).toFinset := by
    rw [Finset.disjoint_left]
    intro a ha hb
    exact hdisj a (by simpa using ha) (by simpa using hb)
  have hlen : (mergeScores [] rows).length = ((mergeScores [] rows).map Prod.fst).length := by
    rw [List.length_map]
  rw [hlen, ← List.toFinset_card_of_nodup hndS, ← List.toFinset_card_of_nodup hndF,
      hSfin, hFfin]
  unfold distinctEvaluated
  rw [← hrows, hUfin, Finset.card_union_of_disjoint hdisjF]

/-- C3 witness: the amended counting theorem on a concrete two-batch
history with an overwrite but no failure-to-success flip. -/
theorem len_explored_counts_distinct_witness :
    (exEmpty.scores = [] ∧ exEmpty.failures = [] ∧
      ∀ x ∈ someKeys batchesClean.flatten, x ∉ noneKeys batchesClean.flatten) ∧
    (mergeAll exEmpty batchesClean).lenExplored = distinctEvaluated batchesClean :=
  ⟨⟨by decide, by decide, by decide⟩,
    len_explored_counts_distinct exEmpty batchesClean (by decide) (by decide) (by decide)⟩

/-! Stopping condition and `k`-argument handling (C6, C7, C8, C10). -/

/-- C6: whenever the epoch has not exceeded `max_epochs`, fewer than the
resolved `max_explore` inputs have been scored, and the recent-averages
window is not yet full, `completed` is `False` — regardless of the score
values, the top-k average or `delta`. -/
theorem completed_false_before_window (ex : Explorer)
    (h1 : ex.epoch ≤ ex.maxEpochs)
    (h2 : (ex.scores.length : ℤ) < ex.maxExploreRes)
    (h3 : ex.recent_avgs.length < ex.windowSize) :
    ex.completed = Except.ok false := by
  unfold Explorer.completed
  rw [if_neg (by omega), if_neg (by omega), if_pos h3]

/-- C6 witness: the stopping condition evaluated on a concrete mid-run
state with a part-filled window. -/
theorem completed_false_before_window_witness :
    (exMidRun.epoch ≤ exMidRun.maxEpochs ∧
      (exMidRun.scores.length : ℤ) < exMidRun.maxExploreRes ∧
      exMidRun.recent_avgs.length < exMidRun.windowSize) ∧
    exMidRun.completed = Except.ok false :=
  ⟨⟨by decide, by decide, by decide⟩,
    completed_false_before_window exMidRun (by decide) (by decide) (by decide)⟩

/-- C7: contrary to the claim (and to the setter's own docstring, which
promises that values larger than the pool "default to using the full
pool"), the resolved `max_explore` is **not** clamped to the pool size:
over a ten-input pool, `max_explore = 20` resolves to 20 and the fraction
`2.0` also resolves to 20. -/
theorem max_explore_exceeds_pool :
    exOverInt.pool.length = 10 ∧ exOverInt.maxExploreRes = 20 ∧
    exOverFrac.maxExploreRes = 20 ∧
    ¬ exOverInt.maxExploreRes ≤ (exOverInt.pool.length : ℤ) ∧
    exOverInt.kProp = 1 := by with_unfolding_all decide

/-- C8 counterexample: on an empty score map, `avg` fails with the
*unguarded* `ZeroDivisionError` — there is no explicit `EmptyPoolError`
style guard in the code. -/
theorem avg_empty_no_guard_cex :
    exEmpty.avg (some (.int 2)) = Except.error PyErr.zeroDivision ∧
    exEmpty.avg (some (.int 2)) ≠ Except.error PyErr.emptyPool := by decide

/-- C8 (amended): whenever the score map is empty (so that every requested
count clamps to zero), `avg` raises an unguarded `ZeroDivisionError` —
for every count argument — rather than any explicit guard condition. -/
theorem avg_of_scores_nil (ex : Explorer) (kArg : Option PyNum)
    (h : ex.scores = []) : ex.avg kArg = Except.error PyErr.zeroDivision := by
  unfold Explorer.avg Explorer.top_explored
  simp only [h, List.isEmpty_nil, List.length_nil]
  split
  · rfl
  · simp

theorem avg_empty_scores_zero_division (ex : Explorer) (kArg : Option PyNum)
    (h : ex.scores = []) : ex.avg kArg = Except.error PyErr.zeroDivision :=
  avg_of_scores_nil ex kArg h

/-- C8 witness: `avg` on a concrete empty-score-map explorer. -/
theorem avg_empty_scores_zero_division_witness :
    exEmpty.scores = [] ∧ exEmpty.avg none = Except.error PyErr.zeroDivision :=
  ⟨by decide, avg_empty_scores_zero_division exEmpty none (by decide)⟩

/-- C10: an explicit argument of `0` (or `0.0`) to `avg`, `top_explored` or
`top_preds` is falsy in `k = k or self.k`, so the configured default `k`
is silently substituted: the call behaves exactly like a call with no
argument. -/
theorem zero_count_uses_default_k (ex : Explorer) :
    ex.avg (some (.int 0)) = ex.avg none ∧
    ex.avg (some (.float 0)) = ex.avg none ∧
    ex.top_explored (some (.int 0)) = ex.top_explored none ∧
    ex.top_explored (some (.float 0)) = ex.top_explored none ∧
    ex.top_preds (some (.int 0)) = ex.top_preds none ∧
    ex.top_preds (some (.float 0)) = ex.top_preds none := by
  have h0 : resolveK ex (some (.int 0)) = resolveK ex none := rfl
  have h1 : resolveK ex (some (.float 0)) = resolveK ex none := by
    unfold resolveK
    norm_num
  refine ⟨?_, ?_, ?_, ?_, ?_, ?_⟩ <;>
    simp only [Explorer.avg, Explorer.top_explored, Explorer.top_preds, h0, h1]

/-! Sorting lemmas and the top-k claims (C1, C4). -/

theorem sortDesc_perm (l : List (String × ℚ)) : (sortDesc l).Perm l :=
  List.mergeSort_perm l _

theorem sortDesc_length (l : List (String × ℚ)) : (sortDesc l).length = l.length := by
  unfold sortDesc
  exact List.length_mergeSort l

theorem sortDesc_sorted (l : List (String × ℚ)) :
    (sortDesc l).Sorted (fun a b => b.2 ≤ a.2) := by
  have h := @List.sorted_mergeSort (String × ℚ) (fun a b => decide (b.2 ≤ a.2))
    (fun a b c hab hbc => by
      simp only [decide_eq_true_eq] at hab hbc ⊢
      exact le_trans hbc hab)
    (fun a b => by
      rcases le_total a.2 b.2 with h | h <;> simp [h])
    l
  exact h.imp (fun hab => of_decide_eq_true hab)

/-- C1: `avg` does not compute the mean of `top_explored`'s values.  At the
failing input — five explored molecules all scoring 1 in a pool of ten,
`count = 4` (so `1 ≤ 4 ≤ |scores|`) — `top_explored(4)` takes its
full-sort branch and returns all five entries with mean 1, while `avg(4)`
sums those five values but divides by 4, returning 1.25.  In the
special-case branch (`k == len(pool)`, a fully scored one-molecule pool),
`avg` sums `(key, value)` pairs and raises `TypeError` instead of
returning any mean. -/
theorem avg_neq_mean_top_explored :
    exAllOnes.avg (some (.int 4)) = Except.ok (5/4) ∧
    exAllOnes.top_explored (some (.int 4)) =
      Except.ok [("a", 1), ("b", 1), ("c", 1), ("d", 1), ("e", 1)] ∧
    (([("a", (1:ℚ)), ("b", 1), ("c", 1), ("d", 1), ("e", 1)].map Prod.snd).sum /
        (([("a", (1:ℚ)), ("b", 1), ("c", 1), ("d", 1), ("e", 1)].map Prod.snd).length : ℚ)
      = 1) ∧
    ¬ ((5:ℚ)/4 = 1) ∧
    exPoolOne.avg (some (.int 1)) = Except.error PyErr.typeError := by
  with_unfolding_all decide

/-- C4 counterexample: with the spec's own §8 scores
`{A:5, B:3, C:9, D:1, E:7}` and `count = 4`, the ratio `4/5` is not below
`0.8`, so `top_explored` takes its full-sort branch and returns all five
entries — not `min(4, 5) = 4` of them. -/
theorem top_explored_miscount_cex :
    exFive.top_explored (some (.int 4)) =
      Except.ok [("C", 9), ("E", 7), ("A", 5), ("B", 3), ("D", 1)] ∧
    ¬ ((5:ℕ) = min 4 exFive.scores.length) := by
  with_unfolding_all decide

/-- C4 (amended): for a non-empty score map (with distinct keys, as a
Python dict guarantees), `top_explored(count)` succeeds and returns a
descending-sorted list of distinct-identifier entries of the score map; it
has exactly `min(resolved count, |scores|)` entries when the resolved
count is below 80% of `|scores|`, but all `|scores|` entries otherwise
(the full-sort branch does not truncate).  A fractional count `q ∈ (0,1]`
resolves to `floor(q * pool_size)` before the clamp to `|scores|`. -/
theorem top_explored_spec (ex : Explorer) (kArg : Option PyNum)
    (hne : ex.scores ≠ []) (hnd : (ex.scores.map Prod.fst).Nodup) :
    (∃ l, ex.top_explored kArg = Except.ok l ∧
      l.length = (if ((resolveK ex kArg : ℚ) / (ex.scores.length : ℚ) < 4/5)
                  then min (resolveK ex kArg).toNat ex.scores.length
                  else ex.scores.length) ∧
      l.Sorted (fun a b => b.2 ≤ a.2) ∧
      (l.map Prod.fst).Nodup ∧
      (∀ p ∈ l, p ∈ ex.scores)) ∧
    (∀ q : ℚ, 0 < q → q ≤ 1 →
      resolveK ex (some (.float q)) =
        min ⌊q * (ex.pool.length : ℚ)⌋ (ex.scores.length : ℤ)) := by
  constructor
  · have hlen0 : ex.scores.length ≠ 0 := by
      simpa [List.length_eq_zero] using hne
    have hsortnd : ((sortDesc ex.scores).map Prod.fst).Nodup :=
      (((sortDesc_perm ex.scores).map Prod.fst).nodup_iff).mpr hnd
    unfold Explorer.top_explored
    rw [if_neg hlen0]
    by_cases hc : ((resolveK ex kArg : ℚ) / (ex.scores.length : ℚ) < 4/5)
    · rw [if_pos hc, if_pos hc]
      refine ⟨_, rfl, ?_, ?_, ?_, ?_⟩
      · rw [List.length_take, sortDesc_length]
      · exact List.Pairwise.sublist (List.take_sublist _ _) (sortDesc_sorted ex.scores)
      · rw [List.map_take]
        exact List.Nodup.sublist (List.take_sublist _ _) hsortnd
      · intro p hp
        exact List.mem_mergeSort.mp (List.mem_of_mem_take hp)
    · rw [if_neg hc, if_neg hc]
      refine ⟨_, rfl, ?_, ?_, ?_, ?_⟩
      · exact sortDesc_length ex.scores
      · exact sortDesc_sorted ex.scores
      · exact hsortnd
      · intro p hp
        exact List.mem_mergeSort.mp hp
  · intro q hq0 _
    have hqne : ¬ q = 0 := ne_of_gt hq0
    have hnn : (0:ℚ) ≤ q * (ex.pool.length : ℚ) :=
      mul_nonneg hq0.le (Nat.cast_nonneg _)
    have hres : resolveK ex (some (.float q)) =
        min (intTrunc (q * (ex.pool.length : ℚ))) (ex.scores.length : ℤ) := by
      simp only [resolveK]
      rw [if_neg hqne]
    rw [hres]
    unfold intTrunc
    rw [if_neg (not_lt.mpr hnn)]

/-- C4 witness: the amended `top_explored` description applied to the
spec's §8 scenario with `count = 2` (the partial-selection regime). -/
theorem top_explored_spec_witness :
    (exFive.scores ≠ [] ∧ (exFive.scores.map Prod.fst).Nodup) ∧
    ((∃ l, exFive.top_explored (some (.int 2)) = Except.ok l ∧
      l.length = (if ((resolveK exFive (some (.int 2)) : ℚ) /
                        (exFive.scores.length : ℚ) < 4/5)
                  then min (resolveK exFive (some (.int 2))).toNat exFive.scores.length
                  else exFive.scores.length) ∧
      l.Sorted (fun a b => b.2 ≤ a.2) ∧
      (l.map Prod.fst).Nodup ∧
      (∀ p ∈ l, p ∈ exFive.scores)) ∧
    (∀ q : ℚ, 0 < q → q ≤ 1 →
      resolveK exFive (some (.float q)) =
        min ⌊q * (exFive.pool.length : ℚ)⌋ (exFive.scores.length : ℤ))) :=
  ⟨⟨by decide, by decide⟩,
    top_explored_spec exFive (some (.int 2)) (by decide) (by decide)⟩

/-! Error classification (C9). -/

theorem top_explored_error_eq (ex : Explorer) (kArg : Option PyNum) {e : PyErr}
    (h : ex.top_explored kArg = Except.error e) : e = PyErr.zeroDivision := by
  simp only [Explorer.top_explored] at h
  split at h
  · simp only [Except.error.injEq] at h
    exact h.symm
  · split at h <;> simp at h

theorem avg_error_cases (ex : Explorer) (kArg : Option PyNum) {e : PyErr}
    (h : ex.avg kArg = Except.error e) :
    e = PyErr.zeroDivision ∨ e = PyErr.typeError := by
  simp only [Explorer.avg] at h
  split at h
  · split at h
    · simp only [Except.error.injEq] at h
      exact Or.inl h.symm
    · simp only [Except.error.injEq] at h
      exact Or.inr h.symm
  · split at h
    · rename_i e' heq
      simp only [Except.error.injEq] at h
      exact h ▸ Or.inl (top_explored_error_eq _ _ heq)
    · split at h
      · simp only [Except.error.injEq] at h
        exact Or.inl h.symm
      · simp at h

theorem write_scores_error_eq (ex : Explorer) {e : PyErr}
    (h : ex.write_scores = Except.error e) : e = PyErr.zeroDivision := by
  simp only [Explorer.write_scores] at h
  split at h
  · rename_i e' heq
    simp only [Except.error.injEq] at h
    exact h ▸ top_explored_error_eq _ _ heq
  · simp at h

theorem writeIfIntermediate_error_eq (ex : Explorer) {e : PyErr}
    (h : writeIfIntermediate ex = Except.error e) : e = PyErr.zeroDivision := by
  unfold writeIfIntermediate at h
  split at h
  · exact write_scores_error_eq _ h
  · simp at h

theorem batchMean_error_eq (results : List (String × Option ℚ)) {e : PyErr}
    (h : batchMean results = Except.error e) : e = PyErr.zeroDivision := by
  simp only [batchMean] at h
  split at h
  · simp only [Except.error.injEq] at h
    exact h.symm
  · simp at h

theorem exploreTail_eq_avg_error (ex : Explorer) (results : List (String × Option ℚ))
    {ea : PyErr} (h1 : (ex.clean_and_update_scores results).avg none = Except.error ea) :
    exploreTail ex results = Except.error ea := by
  simp only [exploreTail, h1]

theorem exploreTail_eq_write_error (ex : Explorer) (results : List (String × Option ℚ))
    {a : ℚ} {ew : PyErr}
    (h1 : (ex.clean_and_update_scores results).avg none = Except.ok a)
    (h2 : writeIfIntermediate (postAvgState (ex.clean_and_update_scores results) a) =
      Except.error ew) :
    exploreTail ex results = Except.error ew := by
  simp only [exploreTail, h1, h2]

theorem exploreTail_eq_mean_error (ex : Explorer) (results : List (String × Option ℚ))
    {a : ℚ} {ex2 : Explorer} {em : PyErr}
    (h1 : (ex.clean_and_update_scores results).avg none = Except.ok a)
    (h2 : writeIfIntermediate (postAvgState (ex.clean_and_update_scores results) a) =
      Except.ok ex2)
    (h3 : batchMean results = Except.error em) :
    exploreTail ex results = Except.error em := by
  simp only [exploreTail, h1, h2, h3]

theorem exploreTail_eq_ok (ex : Explorer) (results : List (String × Option ℚ))
    {a : ℚ} {ex2 : Explorer} {m : ℚ}
    (h1 : (ex.clean_and_update_scores results).avg none = Except.ok a)
    (h2 : writeIfIntermediate (postAvgState (ex.clean_and_update_scores results) a) =
      Except.ok ex2)
    (h3 : batchMean results = Except.ok m) :
    exploreTail ex results = Except.ok ({ ex2 with epoch := ex2.epoch + 1 }, some m) := by
  simp only [exploreTail, h1, h2, h3]

theorem exploreTail_error_cases (ex : Explorer) (results : List (String × Option ℚ))
    {e : PyErr} (h : exploreTail ex results = Except.error e) :
    e = PyErr.zeroDivision ∨ e = PyErr.typeError := by
  cases havg : (ex.clean_and_update_scores results).avg none with
  | error ea =>
    have he := (exploreTail_eq_avg_error ex results havg).symm.trans h
    simp only [Except.error.injEq] at he
    exact he ▸ avg_error_cases _ _ havg
  | ok a =>
    cases hw : writeIfIntermediate (postAvgState (ex.clean_and_update_scores results) a) with
    | error ew =>
      have he := (exploreTail_eq_write_error ex results havg hw).symm.trans h
      simp only [Except.error.injEq] at he
      exact he ▸ Or.inl (writeIfIntermediate_error_eq _ hw)
    | ok ex2 =>
      cases hm : batchMean results with
      | error em =>
        have he := (exploreTail_eq_mean_error ex results havg hw hm).symm.trans h
        simp only [Except.error.injEq] at he
        exact he ▸ Or.inl (batchMean_error_eq _ hm)
      | ok m =>
        have he := (exploreTail_eq_ok ex results havg hw hm).symm.trans h
        simp at he

/-- C9: `explore_batch` raises `InvalidExplorationError` exactly when it is
invoked with the epoch counter still at 0 (before the initial round or a
score load); for every later state it may raise other errors but never
this one. -/
theorem explore_batch_invalid_iff (ex : Explorer) (inp : RoundInput) :
    ex.explore_batch inp = Except.error PyErr.invalidExploration ↔ ex.epoch = 0 := by
  constructor
  · intro h
    by_contra hne
    unfold Explorer.explore_batch at h
    rw [if_neg hne] at h
    split at h
    · simp at h
    · rcases exploreTail_error_cases _ _ h with h' | h' <;> exact PyErr.noConfusion h'
  · intro h
    unfold Explorer.explore_batch
    rw [if_pos h]

/-! Run/load fold equations and basic facts (C2). -/

theorem runAux_nil (ex : Explorer) : runAux ex [] = Except.ok ex := rfl

theorem runAux_cons (ex : Explorer) (inp : RoundInput) (rest : List RoundInput) :
    runAux ex (inp :: rest) =
      match runRound ex inp with
      | .error e => .error e
      | .ok (ex', _) => runAux ex' rest := rfl

theorem runAux_append_ok {ex ex1 : Explorer} (l1 l2 : List RoundInput)
    (h : runAux ex l1 = Except.ok ex1) :
    runAux ex (l1 ++ l2) = runAux ex1 l2 := by
  induction l1 generalizing ex with
  | nil =>
    simp only [runAux_nil, Except.ok.injEq] at h
    rw [List.nil_append, h]
  | cons inp rest ih =>
    rw [List.cons_append, runAux_cons]
    rw [runAux_cons] at h
    cases hr : runRound ex inp with
    | error e => rw [hr] at h; simp at h
    | ok p =>
      rw [hr] at h
      exact ih h

theorem runAux_append_error {ex : Explorer} {e : PyErr} (l1 l2 : List RoundInput)
    (h : runAux ex l1 = Except.error e) :
    runAux ex (l1 ++ l2) = Except.error e := by
  induction l1 generalizing ex with
  | nil => simp [runAux_nil] at h
  | cons inp rest ih =>
    rw [List.cons_append, runAux_cons]
    rw [runAux_cons] at h
    cases hr : runRound ex inp with
    | error e' => rw [hr] at h; exact h
    | ok p =>
      rw [hr] at h
      exact ih h

theorem runAux_take_ok {ex rs : Explorer} {ins : List RoundInput}
    (h : runAux ex ins = Except.ok rs) (i : ℕ) :
    ∃ ri, runAux ex (ins.take i) = Except.ok ri := by
  cases hr : runAux ex (ins.take i) with
  | ok ri => exact ⟨ri, rfl⟩
  | error e =>
    have := runAux_append_error (ins.take i) (ins.drop i) hr
    rw [List.take_append_drop] at this
    rw [this] at h
    exact absurd h (by simp)

theorem loadAux_nil (ex : Explorer) : loadAux ex [] = Except.ok ex := rfl

theorem loadAux_cons (ex : Explorer) (snap : Snapshot) (rest : List Snapshot) :
    loadAux ex (snap :: rest) =
      match loadStep ex snap with
      | .error e => .error e
      | .ok ex' => loadAux ex' rest := rfl

theorem loadAux_append_ok {ex ex1 : Explorer} (l1 l2 : List Snapshot)
    (h : loadAux ex l1 = Except.ok ex1) :
    loadAux ex (l1 ++ l2) = loadAux ex1 l2 := by
  induction l1 generalizing ex with
  | nil =>
    simp only [loadAux_nil, Except.ok.injEq] at h
    rw [List.nil_append, h]
  | cons snap rest ih =>
    rw [List.cons_append, loadAux_cons]
    rw [loadAux_cons] at h
    cases hr : loadStep ex snap with
    | error e => rw [hr] at h; simp at h
    | ok ex' =>
      rw [hr] at h
      exact ih h

theorem loadStep_eq_error (ex : Explorer) (snap : Snapshot) {e : PyErr}
    (h : (loadPreState ex snap).avg none = Except.error e) :
    loadStep ex snap = Except.error e := by
  simp only [loadStep, h]

theorem loadStep_eq_ok (ex : Explorer) (snap : Snapshot) {a : ℚ}
    (h : (loadPreState ex snap).avg none = Except.ok a) :
    loadStep ex snap = Except.ok (postAvgState (loadPreState ex snap) a) := by
  simp only [loadStep, h]

/-! Field-preservation lemmas for the round components (C2). -/

theorem clean_proj (ex : Explorer) (b : List (String × Option ℚ)) :
    (ex.clean_and_update_scores b).pool = ex.pool ∧
    (ex.clean_and_update_scores b).kParam = ex.kParam ∧
    (ex.clean_and_update_scores b).maxExploreParam = ex.maxExploreParam ∧
    (ex.clean_and_update_scores b).windowSize = ex.windowSize ∧
    (ex.clean_and_update_scores b).delta = ex.delta ∧
    (ex.clean_and_update_scores b).maxEpochs = ex.maxEpochs ∧
    (ex.clean_and_update_scores b).retrain_from_scratch = ex.retrain_from_scratch ∧
    (ex.clean_and_update_scores b).write_intermediate = ex.write_intermediate ∧
    (ex.clean_and_update_scores b).epoch = ex.epoch ∧
    (ex.clean_and_update_scores b).scores_csvs = ex.scores_csvs ∧
    (ex.clean_and_update_scores b).scores = mergeScores ex.scores b ∧
    (ex.clean_and_update_scores b).failures = mergeFailures ex.failures b := by
  rw [clean_eq]
  exact ⟨rfl, rfl, rfl, rfl, rfl, rfl, rfl, rfl, rfl, rfl, rfl, rfl⟩

theorem postAvgState_proj (exm : Explorer) (a : ℚ) :
    (postAvgState exm a).pool = exm.pool ∧
    (postAvgState exm a).kParam = exm.kParam ∧
    (postAvgState exm a).maxExploreParam = exm.maxExploreParam ∧
    (postAvgState exm a).windowSize = exm.windowSize ∧
    (postAvgState exm a).delta = exm.delta ∧
    (postAvgState exm a).maxEpochs = exm.maxEpochs ∧
    (postAvgState exm a).retrain_from_scratch = exm.retrain_from_scratch ∧
    (postAvgState exm a).write_intermediate = exm.write_intermediate ∧
    (postAvgState exm a).epoch = exm.epoch ∧
    (postAvgState exm a).scores_csvs = exm.scores_csvs ∧
    (postAvgState exm a).scores = exm.scores ∧
    (postAvgState exm a).failures = exm.failures := by
  simp only [postAvgState]
  split <;> exact ⟨rfl, rfl, rfl, rfl, rfl, rfl, rfl, rfl, rfl, rfl, rfl, rfl⟩

theorem update_model_state_proj (ex : Explorer) :
    (ex.update_model_state).pool = ex.pool ∧
    (ex.update_model_state).kParam = ex.kParam ∧
    (ex.update_model_state).maxExploreParam = ex.maxExploreParam ∧
    (ex.update_model_state).windowSize = ex.windowSize ∧
    (ex.update_model_state).delta = ex.delta ∧
    (ex.update_model_state).maxEpochs = ex.maxEpochs ∧
    (ex.update_model_state).retrain_from_scratch = ex.retrain_from_scratch ∧
    (ex.update_model_state).write_intermediate = ex.write_intermediate ∧
    (ex.update_model_state).epoch = ex.epoch ∧
    (ex.update_model_state).scores_csvs = ex.scores_csvs ∧
    (ex.update_model_state).scores = ex.scores ∧
    (ex.update_model_state).failures = ex.failures := by
  simp only [Explorer.update_model_state]
  split <;> exact ⟨rfl, rfl, rfl, rfl, rfl, rfl, rfl, rfl, rfl, rfl, rfl, rfl⟩

theorem update_predictions_state_proj (ex : Explorer) (preds : List ℚ) :
    (ex.update_predictions_state preds).pool = ex.pool ∧
    (ex.update_predictions_state preds).kParam = ex.kParam ∧
    (ex.update_predictions_state preds).maxExploreParam = ex.maxExploreParam ∧
    (ex.update_predictions_state preds).windowSize = ex.windowSize ∧
    (ex.update_predictions_state preds).delta = ex.delta ∧
    (ex.update_predictions_state preds).maxEpochs = ex.maxEpochs ∧
    (ex.update_predictions_state preds).retrain_from_scratch = ex.retrain_from_scratch ∧
    (ex.update_predictions_state preds).write_intermediate = ex.write_intermediate ∧
    (ex.update_predictions_state preds).epoch = ex.epoch ∧
    (ex.update_predictions_state preds).scores_csvs = ex.scores_csvs ∧
    (ex.update_predictions_state preds).scores = ex.scores ∧
    (ex.update_predictions_state preds).failures = ex.failures ∧
    (ex.update_predictions_state preds).new_scores = ex.new_scores := by
  simp only [Explorer.update_predictions_state]
  split <;> simp

theorem loadPreState_proj (ex : Explorer) (snap : Snapshot) :
    (loadPreState ex snap).pool = ex.pool ∧
    (loadPreState ex snap).kParam = ex.kParam ∧
    (loadPreState ex snap).maxExploreParam = ex.maxExploreParam ∧
    (loadPreState ex snap).windowSize = ex.windowSize ∧
    (loadPreState ex snap).delta = ex.delta ∧
    (loadPreState ex snap).maxEpochs = ex.maxEpochs ∧
    (loadPreState ex snap).retrain_from_scratch = ex.retrain_from_scratch ∧
    (loadPreState ex snap).write_intermediate = ex.write_intermediate ∧
    (loadPreState ex snap).epoch = ex.epoch + 1 ∧
    (loadPreState ex snap).scores_csvs = ex.scores_csvs ∧
    (loadPreState ex snap).scores = (read_scores snap).1 ∧
    (loadPreState ex snap).failures = (read_scores snap).2 := by
  simp only [loadPreState, Explorer.update_model_state]
  split
  · simp
  · split <;> simp

/-! `write_scores` writes the full sorted score table (C2). -/

theorem resolveK_int (ex : Explorer) {n : ℤ} (hn : n ≠ 0) :
    resolveK ex (some (.int n)) = min n (ex.scores.length : ℤ) := by
  cases n with
  | ofNat k =>
    cases k with
    | zero => exact absurd rfl hn
    | succ m => rfl
  | negSucc k => rfl

theorem top_explored_full (ex : Explorer) (hne : ex.scores ≠ []) {n : ℤ}
    (hn0 : n ≠ 0) (hge : (ex.scores.length : ℤ) ≤ n) :
    ex.top_explored (some (.int n)) = Except.ok (sortDesc ex.scores) := by
  have hlen : ex.scores.length ≠ 0 := by
    simpa [List.length_eq_zero] using hne
  simp only [Explorer.top_explored]
  rw [resolveK_int ex hn0, min_eq_right hge, if_neg hlen, if_neg ?_]
  have hq : ((ex.scores.length : ℤ) : ℚ) = (ex.scores.length : ℚ) := by push_cast; rfl
  rw [hq, div_self (by exact_mod_cast hlen)]
  norm_num

theorem write_scores_spec (ex : Explorer) (hne : ex.scores ≠ []) :
    ex.write_scores =
      Except.ok { ex with scores_csvs := ex.scores_csvs ++ [snapRows ex] } := by
  have hlen : ex.scores.length ≠ 0 := by
    simpa [List.length_eq_zero] using hne
  have hlen1 : 1 ≤ ex.lenExplored := by
    unfold Explorer.lenExplored
    omega
  simp only [Explorer.write_scores]
  have hm1 : intTrunc ((1 : ℚ) * ((ex.lenExplored : ℤ) : ℚ)) = (ex.lenExplored : ℤ) := by
    rw [one_mul]
    unfold intTrunc
    rw [if_neg (not_lt.mpr (by positivity))]
    exact Int.floor_intCast _
  rw [hm1, min_self,
    top_explored_full ex hne (by exact_mod_cast Nat.one_le_iff_ne_zero.mp hlen1)
      (by unfold Explorer.lenExplored; push_cast; omega)]
  rfl

theorem write_scores_ok_proj {ex ex2 : Explorer} (h : ex.write_scores = Except.ok ex2) :
    ∃ rows, ex2 = { ex with scores_csvs := ex.scores_csvs ++ [rows] } := by
  simp only [Explorer.write_scores] at h
  split at h
  · simp at h
  · simp only [Except.ok.injEq] at h
    exact ⟨_, h.symm⟩

theorem writeIfIntermediate_ok_proj {ex ex2 : Explorer}
    (h : writeIfIntermediate ex = Except.ok ex2) :
    ∃ s, ex2 = { ex with scores_csvs := ex.scores_csvs ++ s } := by
  unfold writeIfIntermediate at h
  split at h
  · obtain ⟨rows, hr⟩ := write_scores_ok_proj h
    exact ⟨[rows], hr⟩
  · simp only [Except.ok.injEq] at h
    refine ⟨[], ?_⟩
    rw [← h, List.append_nil]

theorem writeIfIntermediate_of_wi {ex : Explorer} (hwi : ex.write_intermediate = true) :
    writeIfIntermediate ex = ex.write_scores := by
  unfold writeIfIntermediate
  rw [if_pos hwi]

/-! `avg` success depends only on the score-map length and configuration
(C2). -/

theorem top_explored_ok_of_length (ex : Explorer) (kArg : Option PyNum)
    (h : ex.scores.length ≠ 0) : ∃ l, ex.top_explored kArg = Except.ok l := by
  simp only [Explorer.top_explored]
  rw [if_neg h]
  split
  · exact ⟨_, rfl⟩
  · exact ⟨_, rfl⟩

theorem avg_ok_scores_ne {ex : Explorer} {kArg : Option PyNum} {a : ℚ}
    (h : ex.avg kArg = Except.ok a) : ex.scores ≠ [] := by
  intro hnil
  rw [avg_of_scores_nil ex kArg hnil] at h
  exact absurd h (by simp)

theorem resolveK_none (ex : Explorer) :
    resolveK ex none = min ex.kProp (ex.scores.length : ℤ) := rfl

theorem avg_isOk_congr {A B : Explorer}
    (hpool : A.pool = B.pool) (hk : A.kParam = B.kParam)
    (hlen : A.scores.length = B.scores.length)
    {b : ℚ} (h : B.avg none = Except.ok b) : ∃ a, A.avg none = Except.ok a := by
  have hkProp : A.kProp = B.kProp := by
    unfold Explorer.kProp
    rw [hpool, hk]
  have hres : resolveK A none = resolveK B none := by
    rw [resolveK_none, resolveK_none, hkProp, hlen]
  have hB0 : B.scores.length ≠ 0 := by
    intro hc
    rw [avg_of_scores_nil B none (List.length_eq_zero.mp hc)] at h
    exact absurd h (by simp)
  have hA0 : A.scores.length ≠ 0 := by rw [hlen]; exact hB0
  have hnotspecial : ¬ (resolveK B none = (B.pool.length : ℤ)) := by
    intro hc
    simp only [Explorer.avg] at h
    rw [if_pos hc] at h
    split at h <;> simp at h
  have hAnotspecial : ¬ (resolveK A none = (A.pool.length : ℤ)) := by
    rw [hres, hpool]
    exact hnotspecial
  have hk0 : ¬ (resolveK B none = 0) := by
    intro hc
    cases ht : B.top_explored (some (.int (resolveK B none))) with
    | error e =>
      have hval : B.avg none = Except.error e := by
        simp only [Explorer.avg, if_neg hnotspecial, ht]
      exact absurd (hval.symm.trans h) (by simp)
    | ok l =>
      have hval : B.avg none = Except.error PyErr.zeroDivision := by
        simp only [Explorer.avg, if_neg hnotspecial, ht, if_pos hc]
      exact absurd (hval.symm.trans h) (by simp)
  have hAk0 : ¬ (resolveK A none = 0) := by rw [hres]; exact hk0
  obtain ⟨l, hl⟩ := top_explored_ok_of_length A (some (.int (resolveK A none))) hA0
  refine ⟨(l.map Prod.snd).sum / ((resolveK A none : ℤ) : ℚ), ?_⟩
  simp only [Explorer.avg, if_neg hAnotspecial, hl, if_neg hAk0]

/-! Snapshot roundtrip: `_read_scores` inverts the written rows (C2). -/

theorem dictUpsert_of_not_mem {d : List (String × ℚ)} {x : String} (v : ℚ)
    (h : x ∉ d.map Prod.fst) : dictUpsert d x v = d ++ [(x, v)] := by
  unfold dictUpsert
  rw [if_neg (fun hc => h ((any_key_iff d x).mp hc))]

theorem failUpsert_of_not_mem {f : List String} {x : String} (h : x ∉ f) :
    failUpsert f x = f ++ [x] := by
  unfold failUpsert
  rw [if_neg (by simpa using h)]

theorem readAux_append (acc : List (String × ℚ) × List String) (r1 r2 : Snapshot) :
    readAux acc (r1 ++ r2) = readAux (readAux acc r1) r2 := by
  unfold readAux
  rw [List.foldl_append]

theorem readAux_scoreRows (s : List (String × ℚ)) :
    ∀ acc : List (String × ℚ) × List String,
      (∀ y ∈ s.map Prod.fst, y ∉ acc.1.map Prod.fst) → (s.map Prod.fst).Nodup →
      readAux acc (s.map (fun p => (p.1, some p.2))) = (acc.1 ++ s, acc.2) := by
  induction s with
  | nil =>
    intro acc _ _
    simp [readAux]
  | cons p t ih =>
    intro acc hdis hnd
    rw [List.map_cons]
    have hstep : readAux acc ((p.1, some p.2) :: t.map (fun p => (p.1, some p.2))) =
        readAux (dictUpsert acc.1 p.1 p.2, acc.2) (t.map (fun p => (p.1, some p.2))) := rfl
    rw [hstep]
    have hp : p.1 ∉ acc.1.map Prod.fst := hdis p.1 (by simp)
    rw [dictUpsert_of_not_mem p.2 hp]
    have hndt : (t.map Prod.fst).Nodup := (List.nodup_cons.mp (by simpa using hnd)).2
    have hph : p.1 ∉ t.map Prod.fst := (List.nodup_cons.mp (by simpa using hnd)).1
    rw [ih (acc.1 ++ [(p.1, p.2)], acc.2) ?_ hndt]
    · simp
    · intro y hy
      have h1 : y ∉ acc.1.map Prod.fst := hdis y (by simp [hy])
      have h2 : ¬ y = p.1 := fun hc => hph (hc ▸ hy)
      simp [h1, h2]

theorem readAux_failRows (f : List String) :
    ∀ acc : List (String × ℚ) × List String,
      (∀ y ∈ f, y ∉ acc.2) → f.Nodup →
      readAux acc (f.map (fun x => ((x, none) : String × Option ℚ))) =
        (acc.1, acc.2 ++ f) := by
  induction f with
  | nil =>
    intro acc _ _
    simp [readAux]
  | cons x t ih =>
    intro acc hdis hnd
    rw [List.map_cons]
    have hstep : readAux acc (((x, none) : String × Option ℚ) :: t.map (fun x => (x, none))) =
        readAux (acc.1, failUpsert acc.2 x) (t.map (fun x => (x, none))) := rfl
    rw [hstep]
    have hx : x ∉ acc.2 := hdis x (by simp)
    rw [failUpsert_of_not_mem hx]
    have hndt : t.Nodup := (List.nodup_cons.mp hnd).2
    have hxt : x ∉ t := (List.nodup_cons.mp hnd).1
    rw [ih (acc.1, acc.2 ++ [x]) ?_ hndt]
    · simp
    · intro y hy
      simp only [List.mem_append, List.mem_singleton, not_or]
      exact ⟨hdis y (by simp [hy]), fun hc => hxt (hc ▸ hy)⟩

theorem read_scores_snapRows (s : List (String × ℚ)) (f : List String)
    (hs : (s.map Prod.fst).Nodup) (hf : f.Nodup) :
    read_scores (s.map (fun p => (p.1, some p.2)) ++
      f.map (fun x => ((x, none) : String × Option ℚ))) = (s, f) := by
  unfold read_scores
  rw [readAux_append, readAux_scoreRows s ([], []) (by simp) hs]
  rw [readAux_failRows f (([] : List (String × ℚ)) ++ s, ([] : List String)) (by simp) hf]
  simp

theorem snapRows_congr {a b : Explorer} (hs : a.scores = b.scores)
    (hf : a.failures = b.failures) : snapRows a = snapRows b := by
  unfold snapRows
  rw [hs, hf]

theorem read_scores_snap (ex : Explorer) (hs : (ex.scores.map Prod.fst).Nodup)
    (hf : ex.failures.Nodup) :
    read_scores (snapRows ex) = (sortDesc ex.scores, ex.failures) := by
  unfold snapRows
  exact read_scores_snapRows _ _
    (((sortDesc_perm ex.scores).map Prod.fst).nodup_iff.mpr hs) hf

/-! Characterization of a successful exploration round (C2). -/

theorem exploreTail_ok_spec {EX r' : Explorer} {res : List (String × Option ℚ)}
    {v : Option ℚ} (hwi : EX.write_intermediate = true)
    (h : exploreTail EX res = Except.ok (r', v)) :
    r'.scores = mergeScores EX.scores res ∧
    r'.failures = mergeFailures EX.failures res ∧
    r'.epoch = EX.epoch + 1 ∧
    (∃ a, (EX.clean_and_update_scores res).avg none = Except.ok a) ∧
    r'.scores_csvs = EX.scores_csvs ++ [snapRows r'] ∧
    sameConfig r' EX := by
  obtain ⟨cp1, cp2, cp3, cp4, cp5, cp6, cp7, cp8, cp9, cp10, cp11, cp12⟩ :=
    clean_proj EX res
  cases havg : (EX.clean_and_update_scores res).avg none with
  | error ea =>
    exact absurd ((exploreTail_eq_avg_error EX res havg).symm.trans h) (by simp)
  | ok a =>
    obtain ⟨pp1, pp2, pp3, pp4, pp5, pp6, pp7, pp8, pp9, pp10, pp11, pp12⟩ :=
      postAvgState_proj (EX.clean_and_update_scores res) a
    have hneS : (postAvgState (EX.clean_and_update_scores res) a).scores ≠ [] := by
      rw [pp11]
      exact avg_ok_scores_ne havg
    have hwi2 : (postAvgState (EX.clean_and_update_scores res) a).write_intermediate = true := by
      rw [pp8, cp8]
      exact hwi
    have hw : writeIfIntermediate (postAvgState (EX.clean_and_update_scores res) a) =
        Except.ok { postAvgState (EX.clean_and_update_scores res) a with
          scores_csvs := (postAvgState (EX.clean_and_update_scores res) a).scores_csvs ++
            [snapRows (postAvgState (EX.clean_and_update_scores res) a)] } := by
      rw [writeIfIntermediate_of_wi hwi2, write_scores_spec _ hneS]
    cases hm : batchMean res with
    | error em =>
      exact absurd ((exploreTail_eq_mean_error EX res havg hw hm).symm.trans h) (by simp)
    | ok m =>
      have heq := (exploreTail_eq_ok EX res havg hw hm).symm.trans h
      simp only [Except.ok.injEq, Prod.mk.injEq] at heq
      obtain ⟨hr', _hv⟩ := heq
      have hsc : r'.scores = mergeScores EX.scores res := by
        rw [← hr', ← cp11, ← pp11]
      have hfl : r'.failures = mergeFailures EX.failures res := by
        rw [← hr', ← cp12, ← pp12]
      have hep2 : r'.epoch = EX.epoch + 1 := by
        rw [← hr', ← cp9, ← pp9]
      have hsnap : snapRows (postAvgState (EX.clean_and_update_scores res) a) =
          snapRows r' := by
        apply snapRows_congr
        · rw [pp11, cp11, ← hsc]
        · rw [pp12, cp12, ← hfl]
      have hcsv : r'.scores_csvs = EX.scores_csvs ++ [snapRows r'] := by
        have hX : r'.scores_csvs =
            (postAvgState (EX.clean_and_update_scores res) a).scores_csvs ++
              [snapRows (postAvgState (EX.clean_and_update_scores res) a)] := by
          rw [← hr']
        rw [hX, pp10, cp10, hsnap]
      have c1 : r'.pool = EX.pool := by rw [← hr', ← cp1, ← pp1]
      have c2 : r'.kParam = EX.kParam := by rw [← hr', ← cp2, ← pp2]
      have c3 : r'.maxExploreParam = EX.maxExploreParam := by rw [← hr', ← cp3, ← pp3]
      have c4 : r'.windowSize = EX.windowSize := by rw [← hr', ← cp4, ← pp4]
      have c5 : r'.delta = EX.delta := by rw [← hr', ← cp5, ← pp5]
      have c6 : r'.maxEpochs = EX.maxEpochs := by rw [← hr', ← cp6, ← pp6]
      have c7 : r'.retrain_from_scratch = EX.retrain_from_scratch := by
        rw [← hr', ← cp7, ← pp7]
      have c8 : r'.write_intermediate = EX.write_intermediate := by
        rw [← hr', ← cp8, ← pp8]
      exact ⟨hsc, hfl, hep2, ⟨a, rfl⟩, hcsv, c1, c2, c3, c4, c5, c6, c7, c8⟩

theorem gates_proj (ex : Explorer) (preds : List ℚ) :
    ((ex.update_model_state).update_predictions_state preds).pool = ex.pool ∧
    ((ex.update_model_state).update_predictions_state preds).kParam = ex.kParam ∧
    ((ex.update_model_state).update_predictions_state preds).maxExploreParam =
      ex.maxExploreParam ∧
    ((ex.update_model_state).update_predictions_state preds).windowSize = ex.windowSize ∧
    ((ex.update_model_state).update_predictions_state preds).delta = ex.delta ∧
    ((ex.update_model_state).update_predictions_state preds).maxEpochs = ex.maxEpochs ∧
    ((ex.update_model_state).update_predictions_state preds).retrain_from_scratch =
      ex.retrain_from_scratch ∧
    ((ex.update_model_state).update_predictions_state preds).write_intermediate =
      ex.write_intermediate ∧
    ((ex.update_model_state).update_predictions_state preds).epoch = ex.epoch ∧
    ((ex.update_model_state).update_predictions_state preds).scores_csvs =
      ex.scores_csvs ∧
    ((ex.update_model_state).update_predictions_state preds).scores = ex.scores ∧
    ((ex.update_model_state).update_predictions_state preds).failures = ex.failures := by
  obtain ⟨m1, m2, m3, m4, m5, m6, m7, m8, m9, m10, m11, m12⟩ :=
    update_model_state_proj ex
  obtain ⟨u1, u2, u3, u4, u5, u6, u7, u8, u9, u10, u11, u12, _⟩ :=
    update_predictions_state_proj (ex.update_model_state) preds
  exact ⟨u1.trans m1, u2.trans m2, u3.trans m3, u4.trans m4, u5.trans m5, u6.trans m6,
    u7.trans m7, u8.trans m8, u9.trans m9, u10.trans m10, u11.trans m11, u12.trans m12⟩

theorem runRound_ok_spec {ri r' : Explorer} {inp : RoundInput} {v : Option ℚ}
    (hwi : ri.write_intermediate = true)
    (hguard : ri.epoch = 0 ∨ ri.scores.length < ri.pool.length)
    (h : runRound ri inp = Except.ok (r', v)) :
    r'.scores = mergeScores ri.scores inp.results ∧
    r'.failures = mergeFailures ri.failures inp.results ∧
    r'.epoch = ri.epoch + 1 ∧
    (∃ B : Explorer, ∃ a, B.avg none = Except.ok a ∧
      B.scores = mergeScores ri.scores inp.results ∧
      B.pool = ri.pool ∧ B.kParam = ri.kParam) ∧
    r'.scores_csvs = ri.scores_csvs ++ [snapRows r'] ∧
    sameConfig r' ri := by
  unfold runRound at h
  by_cases hep : ri.epoch = 0
  · rw [if_pos hep] at h
    have h' : exploreTail ri inp.results = Except.ok (r', v) := h
    obtain ⟨hsc, hfl, hep2, ⟨a, havg⟩, hcsv, hcfg⟩ := exploreTail_ok_spec hwi h'
    obtain ⟨cp1, cp2, _, _, _, _, _, _, _, _, cp11, _⟩ := clean_proj ri inp.results
    exact ⟨hsc, hfl, hep2,
      ⟨ri.clean_and_update_scores inp.results, a, havg, cp11, cp1, cp2⟩, hcsv, hcfg⟩
  · rw [if_neg hep] at h
    unfold Explorer.explore_batch at h
    rw [if_neg hep] at h
    have hlt : ri.scores.length < ri.pool.length := hguard.resolve_left hep
    rw [if_neg (by omega)] at h
    obtain ⟨g1, g2, g3, g4, g5, g6, g7, g8, g9, g10, g11, g12⟩ := gates_proj ri inp.preds
    have hwiu : ((ri.update_model_state).update_predictions_state inp.preds).write_intermediate
        = true := by rw [g8]; exact hwi
    have h' : exploreTail ((ri.update_model_state).update_predictions_state inp.preds)
        inp.results = Except.ok (r', v) := h
    obtain ⟨hsc, hfl, hep2, ⟨a, havg⟩, hcsv, hcfg⟩ := exploreTail_ok_spec hwiu h'
    obtain ⟨cp1, cp2, _, _, _, _, _, _, _, _, cp11, _⟩ :=
      clean_proj ((ri.update_model_state).update_predictions_state inp.preds) inp.results
    obtain ⟨f1, f2, f3, f4, f5, f6, f7, f8⟩ := hcfg
    refine ⟨by rw [hsc, g11], by rw [hfl, g12], by rw [hep2, g9], ?_, by rw [hcsv, g10], ?_⟩
    · exact ⟨_, a, havg, by rw [cp11, g11], by rw [cp1, g1], by rw [cp2, g2]⟩
    · exact ⟨f1.trans g1, f2.trans g2, f3.trans g3, f4.trans g4, f5.trans g5,
        f6.trans g6, f7.trans g7, f8.trans g8⟩

theorem exploreTail_ok_csvs {EX r' : Explorer} {res : List (String × Option ℚ)}
    {v : Option ℚ} (h : exploreTail EX res = Except.ok (r', v)) :
    ∃ s, r'.scores_csvs = EX.scores_csvs ++ s := by
  cases havg : (EX.clean_and_update_scores res).avg none with
  | error ea =>
    exact absurd ((exploreTail_eq_avg_error EX res havg).symm.trans h) (by simp)
  | ok a =>
    cases hw : writeIfIntermediate (postAvgState (EX.clean_and_update_scores res) a) with
    | error ew =>
      exact absurd ((exploreTail_eq_write_error EX res havg hw).symm.trans h) (by simp)
    | ok ex2 =>
      cases hm : batchMean res with
      | error em =>
        exact absurd ((exploreTail_eq_mean_error EX res havg hw hm).symm.trans h) (by simp)
      | ok m =>
        have heq := (exploreTail_eq_ok EX res havg hw hm).symm.trans h
        simp only [Except.ok.injEq, Prod.mk.injEq] at heq
        obtain ⟨hr', _⟩ := heq
        obtain ⟨s, hs⟩ := writeIfIntermediate_ok_proj hw
        obtain ⟨pp1, pp2, pp3, pp4, pp5, pp6, pp7, pp8, pp9, pp10, pp11, pp12⟩ :=
          postAvgState_proj (EX.clean_and_update_scores res) a
        obtain ⟨cp1, cp2, _, _, _, _, _, _, _, cp10, _, _⟩ := clean_proj EX res
        refine ⟨s, ?_⟩
        have h1 : r'.scores_csvs = ex2.scores_csvs := by rw [← hr']
        rw [h1, hs]
        show (postAvgState (EX.clean_and_update_scores res) a).scores_csvs ++ s = _
        rw [pp10, cp10]

theorem runRound_csvs {ri r' : Explorer} {inp : RoundInput} {v : Option ℚ}
    (h : runRound ri inp = Except.ok (r', v)) :
    ∃ s, r'.scores_csvs = ri.scores_csvs ++ s := by
  unfold runRound at h
  by_cases hep : ri.epoch = 0
  · rw [if_pos hep] at h
    exact exploreTail_ok_csvs h
  · rw [if_neg hep] at h
    unfold Explorer.explore_batch at h
    rw [if_neg hep] at h
    split at h
    · simp only [Except.ok.injEq, Prod.mk.injEq] at h
      obtain ⟨hr', _⟩ := h
      exact ⟨[], by rw [← hr', List.append_nil]⟩
    · obtain ⟨g1, g2, g3, g4, g5, g6, g7, g8, g9, g10, g11, g12⟩ := gates_proj ri inp.preds
      obtain ⟨s, hs⟩ := exploreTail_ok_csvs h
      exact ⟨s, by rw [hs, g10]⟩

theorem runAux_csvs {a b : Explorer} (l : List RoundInput) (h : runAux a l = Except.ok b) :
    ∃ s, b.scores_csvs = a.scores_csvs ++ s := by
  induction l generalizing a with
  | nil =>
    simp only [runAux_nil, Except.ok.injEq] at h
    exact ⟨[], by rw [← h, List.append_nil]⟩
  | cons inp rest ih =>
    rw [runAux_cons] at h
    cases hr : runRound a inp with
    | error e => rw [hr] at h; exact absurd h (by simp)
    | ok p =>
      rw [hr] at h
      obtain ⟨ex', v⟩ := p
      obtain ⟨s1, h1⟩ := runRound_csvs hr
      obtain ⟨s2, h2⟩ := ih h
      exact ⟨s1 ++ s2, by rw [h2, h1, List.append_assoc]⟩

/-! The main replay induction (C2). -/

theorem load_reconstructs_aux (ex0 : Explorer) (ins : List RoundInput) (rs : Explorer)
    (h0 : ex0 = ex0.reinit []) (hwi : ex0.write_intermediate = true)
    (hrun : runAux ex0 ins = Except.ok rs)
    (hNoEx : ∀ i, i < ins.length → noExhaustAt ex0 ins i = true) :
    ∀ i, i ≤ ins.length →
      ∃ ri li, runAux ex0 (ins.take i) = Except.ok ri ∧
        loadAux (ex0.reinit rs.scores_csvs) (rs.scores_csvs.take i) = Except.ok li ∧
        li.scores = sortDesc ri.scores ∧
        li.failures = ri.failures ∧
        li.epoch = i ∧ ri.epoch = i ∧
        ri.scores_csvs = rs.scores_csvs.take i ∧
        ri.scores_csvs.length = i ∧
        sameConfig ri ex0 ∧ sameConfig li ex0 ∧
        (ri.scores.map Prod.fst).Nodup ∧ ri.failures.Nodup := by
  have hsc0 : ex0.scores = [] := by rw [h0]; rfl
  have hfl0 : ex0.failures = [] := by rw [h0]; rfl
  have hep0 : ex0.epoch = 0 := by rw [h0]; rfl
  have hcsv0 : ex0.scores_csvs = [] := by rw [h0]; rfl
  intro i
  induction i with
  | zero =>
    intro _
    refine ⟨ex0, ex0.reinit rs.scores_csvs, ?_, ?_, ?_, ?_, rfl, hep0, ?_, ?_, ?_, ?_, ?_, ?_⟩
    · rw [List.take_zero]
      rfl
    · rw [List.take_zero]
      rfl
    · show ([] : List (String × ℚ)) = sortDesc ex0.scores
      rw [hsc0]
      simp [sortDesc]
    · show ([] : List String) = ex0.failures
      rw [hfl0]
    · rw [hcsv0, List.take_zero]
    · rw [hcsv0]
      rfl
    · exact ⟨rfl, rfl, rfl, rfl, rfl, rfl, rfl, rfl⟩
    · exact ⟨rfl, rfl, rfl, rfl, rfl, rfl, rfl, rfl⟩
    · rw [hsc0]; simp
    · rw [hfl0]; simp
  | succ i ihP =>
    intro hi
    have hilt : i < ins.length := Nat.lt_of_succ_le hi
    obtain ⟨ri, li, hri, hli, hlsc, hlf, hlep, hrep, hcsv, hclen, hcfgR, hcfgL, hndS, hndF⟩ :=
      ihP (Nat.le_of_succ_le hi)
    have htake : ins.take (i+1) = ins.take i ++ [ins[i]] := by
      rw [List.take_succ, List.getElem?_eq_getElem hilt]
      rfl
    obtain ⟨r'', hr''⟩ := runAux_take_ok hrun (i+1)
    have hrun1 : runAux ri [ins[i]] = Except.ok r'' := by
      rw [← runAux_append_ok (ins.take i) [ins[i]] hri, ← htake]
      exact hr''
    cases hrr : runRound ri ins[i] with
    | error e =>
      rw [runAux_cons, hrr] at hrun1
      exact absurd hrun1 (by simp)
    | ok p =>
      obtain ⟨r', v⟩ := p
      rw [runAux_cons, hrr] at hrun1
      have hr'eq : r' = r'' := by simpa [runAux_nil] using hrun1
      subst hr'eq
      have hr1 : runAux ex0 (ins.take (i+1)) = Except.ok r' := hr''
      -- guard: this round does not take the exhaustion fast path
      have hx := hNoEx i hilt
      unfold noExhaustAt at hx
      rw [hri] at hx
      have hlt0 : ri.scores.length < ex0.pool.length := by simpa using hx
      have hguard : ri.epoch = 0 ∨ ri.scores.length < ri.pool.length :=
        Or.inr (by rw [hcfgR.1]; exact hlt0)
      have hwiR : ri.write_intermediate = true := by
        rw [hcfgR.2.2.2.2.2.2.2]
        exact hwi
      obtain ⟨hsc', hfl', hep', ⟨B, a, hBavg, hBsc, hBpool, hBk⟩, hcsv', hcfg'⟩ :=
        runRound_ok_spec hwiR hguard hrr
      -- r' bookkeeping
      have hrep' : r'.epoch = i + 1 := by rw [hep', hrep]
      have hcsvr : r'.scores_csvs = rs.scores_csvs.take i ++ [snapRows r'] := by
        rw [hcsv', hcsv]
      have hclen' : r'.scores_csvs.length = i + 1 := by
        rw [hcsv']
        simp [hclen]
      have hndS' : (r'.scores.map Prod.fst).Nodup := by
        rw [hsc']
        exact nodup_keys_mergeScores _ _ hndS
      have hndF' : r'.failures.Nodup := by
        rw [hfl']
        exact nodup_mergeFailures _ _ hndF
      have hcfgR' : sameConfig r' ex0 :=
        ⟨hcfg'.1.trans hcfgR.1, hcfg'.2.1.trans hcfgR.2.1,
          hcfg'.2.2.1.trans hcfgR.2.2.1, hcfg'.2.2.2.1.trans hcfgR.2.2.2.1,
          hcfg'.2.2.2.2.1.trans hcfgR.2.2.2.2.1,
          hcfg'.2.2.2.2.2.1.trans hcfgR.2.2.2.2.2.1,
          hcfg'.2.2.2.2.2.2.1.trans hcfgR.2.2.2.2.2.2.1,
          hcfg'.2.2.2.2.2.2.2.trans hcfgR.2.2.2.2.2.2.2⟩
      -- the full run extends the prefix, so the snapshot list is a prefix
      have hdrop : runAux r' (ins.drop (i+1)) = Except.ok rs := by
        rw [← runAux_append_ok (ins.take (i+1)) (ins.drop (i+1)) hr1]
        rw [List.take_append_drop]
        exact hrun
      obtain ⟨suf, hsuf⟩ := runAux_csvs _ hdrop
      have htakers : rs.scores_csvs.take (i+1) = r'.scores_csvs := by
        rw [hsuf, ← hclen', List.take_left]
      -- load side
      have hread : read_scores (snapRows r') = (sortDesc r'.scores, r'.failures) :=
        read_scores_snap r' hndS' hndF'
      obtain ⟨lp1, lp2, lp3, lp4, lp5, lp6, lp7, lp8, lp9, lp10, lp11, lp12⟩ :=
        loadPreState_proj li (snapRows r')
      have hAsc : (loadPreState li (snapRows r')).scores = sortDesc r'.scores := by
        rw [lp11, hread]
      have hAfl : (loadPreState li (snapRows r')).failures = r'.failures := by
        rw [lp12, hread]
      have hAok : ∃ a', (loadPreState li (snapRows r')).avg none = Except.ok a' := by
        apply avg_isOk_congr (B := B) ?_ ?_ ?_ hBavg
        · rw [lp1, hcfgL.1, hBpool, hcfgR.1]
        · rw [lp2, hcfgL.2.1, hBk, hcfgR.2.1]
        · rw [hAsc, sortDesc_length, hsc', hBsc]
      obtain ⟨a', hA⟩ := hAok
      have hstep := loadStep_eq_ok li (snapRows r') hA
      obtain ⟨qp1, qp2, qp3, qp4, qp5, qp6, qp7, qp8, qp9, qp10, qp11, qp12⟩ :=
        postAvgState_proj (loadPreState li (snapRows r')) a'
      refine ⟨r', postAvgState (loadPreState li (snapRows r')) a', hr1, ?_, ?_, ?_, ?_,
        hrep', htakers.symm, hclen', hcfgR', ?_, hndS', hndF'⟩
      · rw [htakers, hcsvr, loadAux_append_ok _ _ hli, loadAux_cons, hstep]
        rfl
      · rw [qp11, hAsc]
      · rw [qp12, hAfl]
      · rw [qp9, lp9, hlep]
      · exact ⟨(qp1.trans lp1).trans hcfgL.1, (qp2.trans lp2).trans hcfgL.2.1,
          (qp3.trans lp3).trans hcfgL.2.2.1, (qp4.trans lp4).trans hcfgL.2.2.2.1,
          (qp5.trans lp5).trans hcfgL.2.2.2.2.1,
          (qp6.trans lp6).trans hcfgL.2.2.2.2.2.1,
          (qp7.trans lp7).trans hcfgL.2.2.2.2.2.2.1,
          (qp8.trans lp8).trans hcfgL.2.2.2.2.2.2.2⟩

/-- C2 counterexample: a run over a two-molecule pool whose first round
scores the whole pool (with `max_explore = 5` exceeding the pool size, so
`completed` is still false after round one and round two really runs).
Round two takes the pool-exhaustion fast path: it advances the epoch to 2
but writes no snapshot.  Replaying the run's snapshots in a fresh explorer
therefore ends at epoch 1 — no replayed state reconstructs the original
epoch count at the final epoch boundary. -/
theorem load_epoch_mismatch_cex :
    runAux exRunX insRunX = Except.ok runResX ∧
    runResX.epoch = 2 ∧
    runResX.scores_csvs.length = 1 ∧
    runAux exRunX (insRunX.take 1) = Except.ok runResX1 ∧
    runResX1.completed = Except.ok false ∧
    (exRunX.reinit runResX.scores_csvs).load = Except.ok loadResX ∧
    loadResX.epoch = 1 ∧
    loadResX.scores.Perm runResX.scores ∧
    loadResX.failures = runResX.failures := by
  with_unfolding_all decide

/-- C2 (amended): for every run from a freshly-constructed explorer with
intermediate writing enabled, in which no round takes the pool-exhaustion
fast path (which advances the epoch without writing a snapshot),
constructing a new explorer with the same configuration and replaying the
recorded snapshots via `load` reconstructs, at each corresponding epoch
boundary `i`, a state whose score map equals the original run's as a
Python dict (same entries, up to order), whose failure map is identical,
and whose epoch count equals the original's. -/
theorem load_reconstructs (ex0 : Explorer) (ins : List RoundInput) (rs : Explorer)
    (h0 : ex0 = ex0.reinit []) (hwi : ex0.write_intermediate = true)
    (hrun : runAux ex0 ins = Except.ok rs)
    (hNoEx : ∀ i, i < ins.length → noExhaustAt ex0 ins i = true) :
    ∀ i, i ≤ ins.length →
      ∃ ri li, runAux ex0 (ins.take i) = Except.ok ri ∧
        loadAux (ex0.reinit rs.scores_csvs) (rs.scores_csvs.take i) = Except.ok li ∧
        li.scores.Perm ri.scores ∧
        li.failures = ri.failures ∧
        li.epoch = ri.epoch ∧ ri.epoch = i := by
  intro i hi
  obtain ⟨ri, li, h1, h2, h3, h4, h5, h6, _, _, _, _, _, _⟩ :=
    load_reconstructs_aux ex0 ins rs h0 hwi hrun hNoEx i hi
  refine ⟨ri, li, h1, h2, ?_, h4, by rw [h5, h6], h6⟩
  rw [h3]
  exact sortDesc_perm ri.scores

/-- C2 witness: the amended replay theorem instantiated on a concrete
two-round run (one failure, one later success) over a three-molecule
pool. -/
theorem load_reconstructs_witness :
    (exRun = exRun.reinit [] ∧ exRun.write_intermediate = true ∧
      runAux exRun insRun = Except.ok runRes ∧
      (∀ i, i < insRun.length → noExhaustAt exRun insRun i = true)) ∧
    (∀ i, i ≤ insRun.length →
      ∃ ri li, runAux exRun (insRun.take i) = Except.ok ri ∧
        loadAux (exRun.reinit runRes.scores_csvs) (runRes.scores_csvs.take i) =
          Except.ok li ∧
        li.scores.Perm ri.scores ∧
        li.failures = ri.failures ∧
        li.epoch = ri.epoch ∧ ri.epoch = i) :=
  ⟨⟨by with_unfolding_all decide, rfl, by with_unfolding_all decide,
      by with_unfolding_all decide⟩,
    load_reconstructs exRun insRun runRes (by with_unfolding_all decide) rfl
      (by with_unfolding_all decide) (by with_unfolding_all decide)⟩
